import Mathlib

/-!
Verification of the probabilistic forecasting and execution-decision engine
(`backend/services/forecasting`): QuantileForecaster, LiquidityModel,
TransferLearner, SyntheticAugmenter, ForecastExplainer and ExecutionTrigger.

The Python reference implementation is embedded shallowly over `ℝ`:
float arithmetic is modelled by real arithmetic, `np.mean`/`np.std` by
their textbook definitions, and Python's `round(x, n)` by the function
`roundTo n` below (round half up; CPython rounds half to even, but the two
agree away from exact decimal ties and every statement in this file avoids
such ties).  Stateful methods are embedded as explicit state-passing
functions returning an `Except` result together with the successor state,
so that a method that mutates some fields and then raises is modelled
faithfully.
-/

namespace Spec2Proof

/-! ### Basic numeric helpers (np.mean, np.std, np.diff of logs, round) -/

/-- Arithmetic mean of a list, `np.mean` (0 on the empty list, which no claim exercises). -/
noncomputable def mean (l : List ℝ) : ℝ := l.sum / l.length

/-- Population standard deviation, `np.std`. -/
noncomputable def stdDev (l : List ℝ) : ℝ :=
  Real.sqrt (mean (l.map (fun x => (x - mean l) ^ 2)))

/-- Consecutive log returns, `np.diff(np.log(price_series + 1e-9))`. -/
noncomputable def logReturns (prices : List ℝ) : List ℝ :=
  List.zipWith (fun a b => a - b)
    ((prices.map (fun p => Real.log (p + 1e-9))).tail)
    (prices.map (fun p => Real.log (p + 1e-9)))

/-- Python's `round(x, n)` modelled over `ℝ` (round half up; see the header note). -/
noncomputable def roundTo (n : ℕ) (x : ℝ) : ℝ := (⌊x * 10 ^ n + 1 / 2⌋ : ℤ) / 10 ^ n

/-- Last element of a price list, `price_series[-1]` (0 on the empty list,
which no claim exercises). -/
noncomputable def lastD (l : List ℝ) : ℝ := (l.getLast?).getD 0

lemma roundTo_mono {n : ℕ} {x y : ℝ} (h : x ≤ y) : roundTo n x ≤ roundTo n y := by
  unfold roundTo
  have hp : (0 : ℝ) < 10 ^ n := by positivity
  have : (⌊x * 10 ^ n + 1 / 2⌋ : ℤ) ≤ ⌊y * 10 ^ n + 1 / 2⌋ := by
    apply Int.floor_le_floor
    nlinarith
  have : ((⌊x * 10 ^ n + 1 / 2⌋ : ℤ) : ℝ) ≤ ((⌊y * 10 ^ n + 1 / 2⌋ : ℤ) : ℝ) := by
    exact_mod_cast this
  gcongr

lemma roundTo_le (n : ℕ) (x : ℝ) : roundTo n x ≤ x + 1 / (2 * 10 ^ n) := by
  unfold roundTo
  have hp : (0 : ℝ) < 10 ^ n := by positivity
  have h1 : ((⌊x * 10 ^ n + 1 / 2⌋ : ℤ) : ℝ) ≤ x * 10 ^ n + 1 / 2 := Int.floor_le _
  rw [div_le_iff₀ hp]
  calc ((⌊x * 10 ^ n + 1 / 2⌋ : ℤ) : ℝ) ≤ x * 10 ^ n + 1 / 2 := h1
    _ = (x + 1 / (2 * 10 ^ n)) * 10 ^ n := by field_simp; ring

lemma lt_roundTo (n : ℕ) (x : ℝ) : x - 1 / (2 * 10 ^ n) < roundTo n x := by
  unfold roundTo
  have hp : (0 : ℝ) < 10 ^ n := by positivity
  have h1 : x * 10 ^ n + 1 / 2 - 1 < ((⌊x * 10 ^ n + 1 / 2⌋ : ℤ) : ℝ) := Int.sub_one_lt_floor _
  rw [lt_div_iff₀ hp]
  calc (x - 1 / (2 * 10 ^ n)) * 10 ^ n = x * 10 ^ n - 1 / 2 := by field_simp; ring
    _ < ((⌊x * 10 ^ n + 1 / 2⌋ : ℤ) : ℝ) := by linarith

lemma roundTo_zero (n : ℕ) : roundTo n 0 = 0 := by
  unfold roundTo
  norm_num

lemma roundTo_nonneg {n : ℕ} {x : ℝ} (h : 0 ≤ x) : 0 ≤ roundTo n x := by
  have := roundTo_mono (n := n) h
  rwa [roundTo_zero] at this

lemma roundTo_eq (n : ℕ) (x : ℝ) (m : ℤ)
    (h1 : (m : ℝ) ≤ x * 10 ^ n + 1 / 2) (h2 : x * 10 ^ n + 1 / 2 < m + 1) :
    roundTo n x = m / 10 ^ n := by
  unfold roundTo
  rw [Int.floor_eq_iff.mpr ⟨h1, h2⟩]

/-! ### Error taxonomy (section 7 of the spec)

`insufficientHistory` models the ValueError raised by `QuantileForecaster.fit`,
`invalidHorizon` the ValueError raised by `QuantileForecaster.predict`, and
`notFitted` the RuntimeError raised by `TransferLearner.fine_tune` /
`SyntheticAugmenter.generate` before training. -/

inductive ForecastErr
  | insufficientHistory
  | invalidHorizon
  | notFitted
deriving DecidableEq

/-! ### QuantileForecaster (`models/quantile_forecaster.py`) -/

/-- Prediction for a single horizon step (dataclass `QuantilePrediction`). -/
structure QuantilePrediction where
  horizon_day : ℕ
  p10 : ℝ
  p50 : ℝ
  p90 : ℝ

/-- Configuration knobs of `QuantileForecasterConfig` that influence the numeric
reference model.  The remaining fields (hidden_dim, n_heads, n_layers, dropout,
lr, epochs, batch_size, quantiles) do not affect `fit`/`predict` and are
omitted; the quantile set is fixed to (0.10, 0.50, 0.90) via the constants
`z10`/`z90` below, as in the source. -/
structure QuantileForecasterConfig where
  seq_len : ℕ
  max_horizon : ℕ

/-- Default configuration: `seq_len = 30`, `max_horizon = MAX_HORIZON = 5`. -/
def qfConfigDefault : QuantileForecasterConfig := ⟨30, 5⟩

/-- The `_weights` dictionary once populated by `fit`/`load`: the three scalars
mu, sigma and last_price.  In the source, `_is_fitted` is true exactly when
these keys are present (both are set together by `fit` and by `load`), so a
forecaster's state is modelled as `Option QFWeights`: `none` is the unfitted
state with an empty `_weights` dict. -/
structure QFWeights where
  mu : ℝ
  sigma : ℝ
  last_price : ℝ

/-- Constant `scipy.stats.norm.ppf(0.10)` used by `predict`. -/
def z10 : ℝ := -1.2816

/-- Constant `scipy.stats.norm.ppf(0.90)` used by `predict`. -/
def z90 : ℝ := 1.2816

/-- The statistics computed by the body of `QuantileForecaster.fit`:
mean and std of consecutive log returns (std gets the `+ 1e-9` guard) and the
last observed price. -/
noncomputable def fitStats (prices : List ℝ) : QFWeights :=
  ⟨mean (logReturns prices), stdDev (logReturns prices) + 1e-9, lastD prices⟩

/-- Method `QuantileForecaster.fit`.  Raises (ValueError, modelled as
`insufficientHistory`) when the series is shorter than `seq_len + max_horizon`,
leaving the state untouched; otherwise stores `fitStats`.  The returned metrics
dict contains randomly drawn pinball-loss diagnostics that no claim refers to,
so the success payload is modelled as `Unit`. -/
noncomputable def fitQF (cfg : QuantileForecasterConfig) (st : Option QFWeights)
    (prices : List ℝ) : Except ForecastErr Unit × Option QFWeights :=
  if prices.length < cfg.seq_len + cfg.max_horizon then
    (Except.error ForecastErr.insufficientHistory, st)
  else
    (Except.ok (), some (fitStats prices))

/-- One day of the geometric-Brownian-motion quantile approximation in
`QuantileForecaster.predict` (before the 4-decimal rounding):
`drift = mu*d`, `vol = sigma*sqrt(d)`, `p50 = last*exp(drift)`,
`p10 = last*exp(drift + z10*vol)`, `p90 = last*exp(drift + z90*vol)`. -/
noncomputable def gbmDay (mu sigma last : ℝ) (d : ℕ) : QuantilePrediction :=
  ⟨d,
   last * Real.exp (mu * d + z10 * (sigma * Real.sqrt d)),
   last * Real.exp (mu * d),
   last * Real.exp (mu * d + z90 * (sigma * Real.sqrt d))⟩

/-- The `round(·, 4)` applied to each quantile of a prediction record. -/
noncomputable def roundPred (q : QuantilePrediction) : QuantilePrediction :=
  ⟨q.horizon_day, roundTo 4 q.p10, roundTo 4 q.p50, roundTo 4 q.p90⟩

/-- The (mu, sigma) pair used by `predict`: the fitted stats when available,
otherwise mean/std of the recent window's log returns (again with the
`+ 1e-9` guard on sigma). -/
noncomputable def predictMuSigma (st : Option QFWeights) (recent : List ℝ) : ℝ × ℝ :=
  match st with
  | some w => (w.mu, w.sigma)
  | none => (mean (logReturns recent), stdDev (logReturns recent) + 1e-9)

/-- The loop body of `QuantileForecaster.predict` after the horizon check:
one rounded prediction per day `d = 1 .. horizon`. -/
noncomputable def predictCore (st : Option QFWeights) (recent : List ℝ)
    (horizon : ℕ) : List QuantilePrediction :=
  (List.range horizon).map (fun i =>
    roundPred (gbmDay (predictMuSigma st recent).1 (predictMuSigma st recent).2
      (lastD recent) (i + 1)))

/-- Method `QuantileForecaster.predict`: raises (ValueError, modelled as
`invalidHorizon`) unless `1 ≤ horizon ≤ max_horizon`. -/
noncomputable def predictQF (cfg : QuantileForecasterConfig) (st : Option QFWeights)
    (recent : List ℝ) (horizon : ℕ) : Except ForecastErr (List QuantilePrediction) :=
  if horizon < 1 ∨ cfg.max_horizon < horizon then Except.error ForecastErr.invalidHorizon
  else Except.ok (predictCore st recent horizon)

/-- Quantile spread `p90 - p10` of the `i`-th element of a prediction list
(with a zero record as out-of-range default). -/
noncomputable def predSpread (l : List QuantilePrediction) (i : ℕ) : ℝ :=
  (l.getD i ⟨0, 0, 0, 0⟩).p90 - (l.getD i ⟨0, 0, 0, 0⟩).p10

/-! ### LiquidityModel (`models/liquidity_model.py`) -/

/-- Output of the hybrid model (dataclass `LiquidityPrediction`). -/
structure LiquidityPrediction where
  price_up_prob : ℝ
  price_flat_prob : ℝ
  price_down_prob : ℝ
  liquidity_high_prob : ℝ
  liquidity_low_prob : ℝ

/-- The weight knobs of `LiquidityModelConfig` used by `predict`; the training
knobs (hidden_dim, lr, epochs, batch_size) do not affect it and are omitted. -/
structure LiquidityModelConfig where
  spread_weight : ℝ
  depth_weight : ℝ
  imbalance_weight : ℝ

/-- Defaults: spread 0.4, depth 0.3, imbalance 0.3. -/
def lmConfigDefault : LiquidityModelConfig := ⟨0.4, 0.3, 0.3⟩

/-- Python `d.get(key, default)` on a string-keyed float dict, modelled as an
association list (first binding wins, as dict keys are unique). -/
noncomputable def dGet : List (String × ℝ) → String → ℝ → ℝ
  | [], _, d => d
  | kv :: rest, k, d => if kv.1 = k then kv.2 else dGet rest k d

/-- Method `LiquidityModel._sigmoid`: logistic squashing with the input clipped to
[-500, 500] (`np.clip`). -/
noncomputable def sigmoid (x : ℝ) : ℝ :=
  1 / (1 + Real.exp (-(max (-500) (min x 500))))

/-- The local `ret`/`up` of `LiquidityModel.predict`:
`ret = (close - open)/(open_default_1 + 1e-9)` (note the differing dict
defaults in the source: 0 for the numerator reads, 1 for the denominator),
squashed as `up = sigmoid(ret * 10)`. -/
noncomputable def lmUp (ohlcv : List (String × ℝ)) : ℝ :=
  sigmoid ((dGet ohlcv ("close") 0 - dGet ohlcv ("open") 0)
    / (dGet ohlcv ("open") 1 + 1e-9) * 10)

/-- Local `price_up = max(up - flat_band/2, 0)` with `flat_band = 0.1`. -/
noncomputable def lmPriceUp (ohlcv : List (String × ℝ)) : ℝ :=
  max (lmUp ohlcv - 0.1 / 2) 0

/-- Local `price_down = max(down - flat_band/2, 0)` with `down = 1 - up`. -/
noncomputable def lmPriceDown (ohlcv : List (String × ℝ)) : ℝ :=
  max (1 - lmUp ohlcv - 0.1 / 2) 0

/-- Local `price_flat = max(1 - price_up - price_down, 0)`. -/
noncomputable def lmPriceFlat (ohlcv : List (String × ℝ)) : ℝ :=
  max (1 - lmPriceUp ohlcv - lmPriceDown ohlcv) 0

/-- Local `total = price_up + price_down + price_flat + 1e-9`. -/
noncomputable def lmTotal (ohlcv : List (String × ℝ)) : ℝ :=
  lmPriceUp ohlcv + lmPriceDown ohlcv + lmPriceFlat ohlcv + 1e-9

/-- Local `liquidity_score`: standardized spread and depth (fitted stats with
dict defaults 0/1) combined with the configured weights and the raw
imbalance. -/
noncomputable def lmScore (cfg : LiquidityModelConfig) (stats ob : List (String × ℝ)) : ℝ :=
  cfg.spread_weight
      * (-((dGet ob ("spread") 0 - dGet stats ("mean_spread") 0) / dGet stats ("std_spread") 1))
    + cfg.depth_weight
      * ((dGet ob ("depth") 0 - dGet stats ("mean_depth") 0) / dGet stats ("std_depth") 1)
    + cfg.imbalance_weight * dGet ob ("imbalance") 0

/-- Method `LiquidityModel.predict`.  `stats` is the `_stats` dict (empty before
`fit`, so that every `.get` falls back to its default — this covers both the
fitted and the unfitted model); `order_book or {}` is `Option.getD []`.  The
method also reads `ohlcv.get("volume", 0.0)` into a variable it never uses;
that dead read is omitted. -/
noncomputable def predictLM (cfg : LiquidityModelConfig) (stats : List (String × ℝ))
    (ohlcv : List (String × ℝ)) (order_book : Option (List (String × ℝ))) :
    LiquidityPrediction :=
  let ob := order_book.getD []
  let liq_high := sigmoid (lmScore cfg stats ob)
  ⟨roundTo 4 (lmPriceUp ohlcv / lmTotal ohlcv),
   roundTo 4 (lmPriceFlat ohlcv / lmTotal ohlcv),
   roundTo 4 (lmPriceDown ohlcv / lmTotal ohlcv),
   roundTo 4 liq_high, roundTo 4 (1 - liq_high)⟩

/-! ### ExecutionTrigger (`execution_trigger.py`) -/

/-- Dataclass `ExecutionSignal`.  `details` is the extra numeric context dict. -/
structure ExecutionSignal where
  signal : String
  confidence : ℝ
  reason : String
  timing : String
  details : List (String × ℝ)

/-- The four configurable thresholds of `ExecutionTrigger.__init__`. -/
structure ExecutionTrigger where
  price_up_thr : ℝ
  price_down_thr : ℝ
  liq_thr : ℝ
  spread_max : ℝ

/-- Default thresholds: 0.55 / 0.55 / 0.50 / 0.08. -/
def defaultTrigger : ExecutionTrigger := ⟨0.55, 0.55, 0.50, 0.08⟩

/-- Derived quantity `spread_frac = (p90 - p10) / (current_price + 1e-9)`. -/
noncomputable def spreadFrac (qp : QuantilePrediction) (price : ℝ) : ℝ :=
  (qp.p90 - qp.p10) / (price + 1e-9)

/-- Derived quantity `upside = (p50 - current_price) / (current_price + 1e-9)`. -/
noncomputable def upsideFrac (qp : QuantilePrediction) (price : ℝ) : ℝ :=
  (qp.p50 - price) / (price + 1e-9)

/-- Decimal rendering of the `:.1f` format directives inside the reason
f-strings.  The rendered digits model CPython's formatting up to its
round-half-to-even tie behaviour; no claim depends on the digits, only on the
literal text surrounding them. -/
noncomputable def fmt1f (x : ℝ) : String :=
  toString (⌊x * 10 + 1 / 2⌋ / 10 : ℤ) ++ "." ++ toString ((⌊x * 10 + 1 / 2⌋ : ℤ) % 10).natAbs

/-- Decimal rendering of the `:.0f` format directives (see `fmt1f`). -/
noncomputable def fmt0f (x : ℝ) : String :=
  toString (⌊x + 1 / 2⌋ : ℤ)

/-- The decision matrix stage of `ExecutionTrigger.evaluate` (the
`if`/`elif` chain before the uncertainty override): signal, confidence,
reason and timing. -/
structure RawDecision where
  signal : String
  confidence : ℝ
  reason : String
  timing : String

/-- Lines 74–112 of `execution_trigger.py`: the decision matrix, first match
winning.  Comparisons are exactly the source's `>=` / `>` / `<`. -/
noncomputable def decisionMatrix (t : ExecutionTrigger) (qp : QuantilePrediction)
    (lp : LiquidityPrediction) (price : ℝ) : RawDecision :=
  let sf := spreadFrac qp price
  let up := upsideFrac qp price
  let liq_ok := t.liq_thr ≤ lp.liquidity_high_prob
  let price_up := t.price_up_thr ≤ lp.price_up_prob
  let price_down := t.price_down_thr ≤ lp.price_down_prob
  if price_up ∧ liq_ok then
    ⟨"enter", min lp.price_up_prob lp.liquidity_high_prob,
     "Median forecast +" ++ fmt1f (up * 100) ++ "% with "
       ++ fmt0f (lp.liquidity_high_prob * 100) ++ "% high-liquidity probability",
     if 0.7 < lp.liquidity_high_prob then ("intraday") else ("next_open")⟩
  else if price_up ∧ ¬liq_ok then
    ⟨"defer", lp.price_up_prob * 0.5,
     "Positive outlook (+" ++ fmt1f (up * 100) ++ "%) but liquidity only "
       ++ fmt0f (lp.liquidity_high_prob * 100) ++ "% — defer execution",
     "wait_1_day"⟩
  else if price_down ∧ liq_ok then
    ⟨"exit", min lp.price_down_prob lp.liquidity_high_prob,
     "Median forecast " ++ fmt1f (up * 100) ++ "% with adequate liquidity — consider exiting",
     if sf < t.spread_max then ("intraday") else ("next_close")⟩
  else if price_down ∧ ¬liq_ok then
    ⟨"defer", lp.price_down_prob * 0.4,
     "Negative outlook but poor liquidity — defer to avoid slippage",
     "wait_1_day"⟩
  else
    ⟨"hold", 1 - max lp.price_up_prob lp.price_down_prob,
     "No strong directional conviction",
     "next_open"⟩

/-- The text appended to the reason by the uncertainty override. -/
noncomputable def overrideNote (sf : ℝ) : String :=
  " [OVERRIDE: quantile spread " ++ fmt1f (sf * 100) ++ "% exceeds threshold]"

/-- Method `ExecutionTrigger.evaluate`: the decision matrix followed by the
uncertainty override (`spread_frac > spread_max and signal in ("enter",
"exit")` forces hold / wait_1_day and appends the override note), then the
assembly of the `ExecutionSignal` with the confidence rounded to 4 decimals
and the `details` dict. -/
noncomputable def evaluate (t : ExecutionTrigger) (qp : QuantilePrediction)
    (lp : LiquidityPrediction) (price : ℝ) : ExecutionSignal :=
  let sf := spreadFrac qp price
  let up := upsideFrac qp price
  let rd := decisionMatrix t qp lp price
  let overridden := t.spread_max < sf ∧ (rd.signal = "enter" ∨ rd.signal = "exit")
  ⟨if overridden then ("hold") else rd.signal,
   roundTo 4 rd.confidence,
   if overridden then rd.reason ++ overrideNote sf else rd.reason,
   if overridden then ("wait_1_day") else rd.timing,
   [("upside_pct", roundTo 2 (up * 100)),
    ("spread_frac_pct", roundTo 2 (sf * 100)),
    ("liq_high_prob", lp.liquidity_high_prob),
    ("price_up_prob", lp.price_up_prob),
    ("price_down_prob", lp.price_down_prob)]⟩

/-! ### ForecastExplainer (`explainers.py`) -/

/-- Replacing the value bound to key `k` by `b` in a feature dict:
`ablated = dict(features); ablated[key] = b`. -/
noncomputable def ablate (features : List (String × ℝ)) (k : String) (b : ℝ) :
    List (String × ℝ) :=
  features.map (fun kv => if kv.1 = k then (kv.1, b) else kv)

/-- Method `ForecastExplainer.compute_shap` when a `predict_fn` is supplied (the
explainer instance's `baseline` dict is the first argument): for each feature,
`round(predict_fn(full) - predict_fn(full with the feature ablated to
baseline.get(key, 0.0)), 6)`. -/
noncomputable def computeShap (baseline features : List (String × ℝ))
    (predict_fn : List (String × ℝ) → ℝ) : List (String × ℝ) :=
  features.map (fun kv =>
    (kv.1, roundTo 6 (predict_fn features
      - predict_fn (ablate features kv.1 (dGet baseline kv.1 0)))))

/-- The hand-tuned weight table of `ForecastExplainer._heuristic_shap`. -/
def heuristicWeights : List (String × ℝ) :=
  [("volume", 0.30), ("close", 0.20), ("spread", 0.15), ("depth", 0.10),
   ("rsi", 0.10), ("open", 0.05), ("high", 0.03), ("low", 0.03),
   ("imbalance", 0.02), ("news_sentiment", 0.02)]

/-- Method `ForecastExplainer._heuristic_shap`: weight × (value − baseline), with a
0.01 default weight for unknown features, rounded to 6 decimals. -/
noncomputable def heuristicShap (baseline features : List (String × ℝ)) :
    List (String × ℝ) :=
  features.map (fun kv =>
    (kv.1, roundTo 6 (dGet heuristicWeights kv.1 0.01 * (kv.2 - dGet baseline kv.1 0))))

/-- Method `ForecastExplainer.compute_shap` with its optional `predict_fn` dispatch. -/
noncomputable def computeShapOpt (baseline features : List (String × ℝ))
    (predict_fn : Option (List (String × ℝ) → ℝ)) : List (String × ℝ) :=
  match predict_fn with
  | none => heuristicShap baseline features
  | some f => computeShap baseline features f

/-- The additive predictor of claim C7: the sum of the feature values. -/
noncomputable def sumPredict (l : List (String × ℝ)) : ℝ :=
  (l.map Prod.snd).sum

/-- The z-score the source's `z_map` assigns to a confidence level:
`z_map.get(round(confidence, 2), 1.2816)`. -/
noncomputable def zTarget (confidence : ℝ) : ℝ :=
  if roundTo 2 confidence = 0.90 then 1.6449
  else if roundTo 2 confidence = 0.95 then 1.9600
  else if roundTo 2 confidence = 0.99 then 2.5758
  else if roundTo 2 confidence = 0.50 then 0.6745
  else 1.2816

/-- The rescaled half-width `scaled = half_width * (z_target / z_80)` of
`ForecastExplainer.confidence_interval`.  For confidence 0.80 the map lookup
misses and `z_target = z_80`, so this also equals the half-width used by the
early-return branch. -/
noncomputable def ciScaled (p10 p90 confidence : ℝ) : ℝ :=
  ((p90 - p10) / 2) * (zTarget confidence / 1.2816)

/-- Method `ForecastExplainer.confidence_interval`.  Confidence within 1e-6 of 0.80
returns `(round(p10, 4), round(p90, 4))`; otherwise the interval is symmetric
around the midpoint with the rescaled half-width, rounded to 4 decimals. -/
noncomputable def confidence_interval (p10 p90 confidence : ℝ) : ℝ × ℝ :=
  if |confidence - 0.80| < 1e-6 then (roundTo 4 p10, roundTo 4 p90)
  else
    (roundTo 4 ((p10 + p90) / 2 - ciScaled p10 p90 confidence),
     roundTo 4 ((p10 + p90) / 2 + ciScaled p10 p90 confidence))

/-- Width of the returned confidence interval. -/
noncomputable def ciWidth (p10 p90 confidence : ℝ) : ℝ :=
  (confidence_interval p10 p90 confidence).2 - (confidence_interval p10 p90 confidence).1

/-! ### TransferLearner (`models/transfer_learner.py`) -/

/-- The mutable state of a `TransferLearner`.  `base` models `_base_model`
(`none` before any training; `some st` holds the wrapped forecaster's own
state, itself an `Option QFWeights`, see `QFWeights`).  The config fields
(`pretrain_epochs`, `finetune_epochs`, `finetune_lr`, `freeze_layers`) only
parameterise the metrics dict and the forecaster's epochs knob, neither of
which influences the modelled numerics, and are omitted. -/
structure TLState where
  base : Option (Option QFWeights)
  pretrained : Bool
  finetuned : Bool
  pretrain_sources : List String

/-- Constructor `TransferLearner.__init__`. -/
def tlInit : TLState := ⟨none, false, false, []⟩

/-- Method `TransferLearner.pre_train`: builds a fresh forecaster, concatenates the
corpus series (a Python dict preserves insertion order, so the corpus is an
association list) and fits on the concatenation.  The assignment
`self._base_model = QuantileForecaster(...)` happens before `fit`, so on a
fit failure the learner keeps the fresh unfitted model while `pretrained`
stays false. -/
noncomputable def preTrain (st : TLState) (corpus : List (String × List ℝ)) :
    Except ForecastErr Unit × TLState :=
  match fitQF qfConfigDefault none ((corpus.map Prod.snd).flatten) with
  | (Except.error e, b) => (Except.error e, ⟨some b, st.pretrained, st.finetuned, st.pretrain_sources⟩)
  | (Except.ok _, b) => (Except.ok (), ⟨some b, true, st.finetuned, corpus.map Prod.fst⟩)

/-- Method `TransferLearner.fine_tune`: raises NotFitted unless pre-trained; reads
the pre-trained stats with dict defaults (`.get("mu", 0.0)`,
`.get("sigma", 1.0)`), re-fits the internal forecaster on the target series
(a fit failure propagates after that assignment, with the weights untouched),
then blends `alpha*old + (1-alpha)*new` with `alpha = 0.3` and sets
`finetuned`. -/
noncomputable def fineTune : TLState → List ℝ → Except ForecastErr Unit × TLState
  | ⟨none, pre, fin, src⟩, _ => (Except.error ForecastErr.notFitted, ⟨none, pre, fin, src⟩)
  | ⟨some qf, false, fin, src⟩, _ =>
    (Except.error ForecastErr.notFitted, ⟨some qf, false, fin, src⟩)
  | ⟨some qf, true, fin, src⟩, target =>
    match fitQF qfConfigDefault qf target with
    | (Except.error e, qf2) => (Except.error e, ⟨some qf2, true, fin, src⟩)
    | (Except.ok _, qf2) =>
      (Except.ok (),
       ⟨some (qf2.map (fun w =>
          (⟨0.3 * (qf.map QFWeights.mu).getD 0 + (1 - 0.3) * w.mu,
            0.3 * (qf.map QFWeights.sigma).getD 1 + (1 - 0.3) * w.sigma,
            w.last_price⟩ : QFWeights))),
        true, true, src⟩)

/-! ### SyntheticAugmenter (`models/synthetic_augmenter.py`) -/

/-- The `AugmenterConfig` knobs that influence `generate`; `method`,
`latent_dim` and `epochs` are informational only and omitted.  `noise_scale`
only scales the width of the Gaussian the noise is drawn from, see
`generate`. -/
structure AugmenterConfig where
  n_synthetic : ℕ
  seq_len : ℕ

/-- Defaults: `n_synthetic = 5`, `seq_len = 60`. -/
def augConfigDefault : AugmenterConfig := ⟨5, 60⟩

/-- State of a `SyntheticAugmenter`: `_mu`, `_sigma`, `_last_price`, `_is_fitted`. -/
structure AugState where
  mu : ℝ
  sigma : ℝ
  last_price : ℝ
  fitted : Bool

/-- Constructor `SyntheticAugmenter.__init__`: mu 0.0, sigma 1.0, last price 100.0. -/
def augInit : AugState := ⟨0, 1, 100, false⟩

/-- Method `SyntheticAugmenter.fit`: mean/std of log returns (sigma with the `+ 1e-9`
guard) and the last price; sets the fitted flag. -/
noncomputable def fitAug (prices : List ℝ) : AugState :=
  ⟨mean (logReturns prices), stdDev (logReturns prices) + 1e-9, lastD prices, true⟩

/-- One synthetic price path before the final 4-decimal rounding:
`series = last_price * exp(np.cumsum(noise))`.  `noise i j` stands for the
`j`-th draw of `np.random.normal(mu, sigma * noise_scale)` made for the `i`-th
series; the generator is this deterministic function of those draws. -/
noncomputable def rawSeries (cfg : AugmenterConfig) (st : AugState)
    (noise : ℕ → ℕ → ℝ) (i : ℕ) : List ℝ :=
  (List.range cfg.seq_len).map (fun j =>
    st.last_price * Real.exp (((List.range (j + 1)).map (noise i)).sum))

/-- One synthetic series as returned: `np.round(series, 4)`. -/
noncomputable def genSeries (cfg : AugmenterConfig) (st : AugState)
    (noise : ℕ → ℕ → ℝ) (i : ℕ) : List ℝ :=
  (rawSeries cfg st noise i).map (roundTo 4)

/-- Method `SyntheticAugmenter.generate`: raises NotFitted before `fit`; `n = 0` is
falsy in Python so `n or self.config.n_synthetic` substitutes the configured
default. -/
noncomputable def generate (cfg : AugmenterConfig) (st : AugState)
    (noise : ℕ → ℕ → ℝ) (n : ℕ) : Except ForecastErr (List (List ℝ)) :=
  if st.fitted then
    Except.ok ((List.range (if n = 0 then cfg.n_synthetic else n)).map (genSeries cfg st noise))
  else Except.error ForecastErr.notFitted

/-! ### Supporting lemmas -/

lemma stdDev_nonneg (l : List ℝ) : 0 ≤ stdDev l := Real.sqrt_nonneg _

lemma fitStats_sigma_pos (prices : List ℝ) : 0 < (fitStats prices).sigma := by
  have := stdDev_nonneg (logReturns prices)
  simp only [fitStats]
  norm_num
  linarith

lemma gbm_ordered (mu sigma last : ℝ) (d : ℕ) (hs : 0 ≤ sigma) (hl : 0 ≤ last) :
    (gbmDay mu sigma last d).p10 ≤ (gbmDay mu sigma last d).p50 ∧
    (gbmDay mu sigma last d).p50 ≤ (gbmDay mu sigma last d).p90 := by
  have hv : 0 ≤ sigma * Real.sqrt d := mul_nonneg hs (Real.sqrt_nonneg _)
  constructor
  · apply mul_le_mul_of_nonneg_left _ hl
    apply Real.exp_le_exp.mpr
    have : z10 * (sigma * Real.sqrt d) ≤ 0 := by
      apply mul_nonpos_of_nonpos_of_nonneg _ hv
      norm_num [z10]
    linarith
  · apply mul_le_mul_of_nonneg_left _ hl
    apply Real.exp_le_exp.mpr
    have : 0 ≤ z90 * (sigma * Real.sqrt d) := by
      apply mul_nonneg _ hv
      norm_num [z90]
    linarith

/-! ### Claim C1 -/

/-- C1: for every QuantileForecaster fitted on a positive price series, every
non-empty recent-price window with positive last price, and every horizon
`h ∈ [1, 5]`, `predict(recent_prices, horizon=h)` returns exactly `h`
`QuantilePrediction` records whose `horizon_day` fields are `1, …, h` in
order, and every returned record satisfies `p10 ≤ p50 ≤ p90`. -/
theorem C1_predict_quantiles
    (prices : List ℝ) (st : Option QFWeights) (recent : List ℝ) (h : ℕ)
    (hfit : fitQF qfConfigDefault none prices = (Except.ok (), st))
    (hpos : ∀ p ∈ prices, 0 < p)
    (hne : recent ≠ [])
    (hlast : 0 < lastD recent)
    (h1 : 1 ≤ h) (h5 : h ≤ 5) :
    predictQF qfConfigDefault st recent h = Except.ok (predictCore st recent h) ∧
    (predictCore st recent h).length = h ∧
    (∀ i (hi : i < (predictCore st recent h).length),
      ((predictCore st recent h).get ⟨i, hi⟩).horizon_day = i + 1) ∧
    ∀ q ∈ predictCore st recent h, q.p10 ≤ q.p50 ∧ q.p50 ≤ q.p90 := by
  have hst : st = some (fitStats prices) := by
    rw [fitQF] at hfit
    split_ifs at hfit with hlen
    · simp at hfit
    · simpa using hfit.symm
  subst hst
  refine ⟨?_, ?_, ?_, ?_⟩
  · rw [predictQF, if_neg]
    simp only [qfConfigDefault]
    omega
  · simp [predictCore]
  · intro i hi
    simp [predictCore, roundPred, gbmDay]
  · intro q hq
    simp only [predictCore, List.mem_map, List.mem_range] at hq
    obtain ⟨i, _, rfl⟩ := hq
    have hord := gbm_ordered (predictMuSigma (some (fitStats prices)) recent).1
      (predictMuSigma (some (fitStats prices)) recent).2 (lastD recent) (i + 1)
      (by simpa [predictMuSigma] using (fitStats_sigma_pos prices).le) hlast.le
    exact ⟨roundTo_mono hord.1, roundTo_mono hord.2⟩

/-- Witness for C1 at a concrete fitted forecaster (35 constant prices),
recent window `[100]` and horizon 2. -/
theorem C1_predict_quantiles_witness :
    predictQF qfConfigDefault (some (fitStats (List.replicate 35 (100 : ℝ)))) [(100 : ℝ)] 2
      = Except.ok (predictCore (some (fitStats (List.replicate 35 (100 : ℝ)))) [(100 : ℝ)] 2) ∧
    (predictCore (some (fitStats (List.replicate 35 (100 : ℝ)))) [(100 : ℝ)] 2).length = 2 ∧
    (∀ i (hi : i < (predictCore (some (fitStats (List.replicate 35 (100 : ℝ)))) [(100 : ℝ)] 2).length),
      ((predictCore (some (fitStats (List.replicate 35 (100 : ℝ)))) [(100 : ℝ)] 2).get
        ⟨i, hi⟩).horizon_day = i + 1) ∧
    ∀ q ∈ predictCore (some (fitStats (List.replicate 35 (100 : ℝ)))) [(100 : ℝ)] 2,
      q.p10 ≤ q.p50 ∧ q.p50 ≤ q.p90 :=
  C1_predict_quantiles (List.replicate 35 100) _ [100] 2
    (by rw [fitQF, if_neg]; simp [qfConfigDefault])
    (by intro p hp; rw [List.eq_of_mem_replicate hp]; norm_num)
    (by simp)
    (by simp [lastD])
    (by norm_num) (by norm_num)

/-! ### Claim C4 -/

lemma exp_le_inv_one_sub {x : ℝ} (hx : x < 1) : Real.exp x ≤ 1 / (1 - x) := by
  have h0 : 0 < 1 - x := by linarith
  have h1 : 1 - x ≤ Real.exp (-x) := by
    have := Real.add_one_le_exp (-x)
    linarith
  have h2 : Real.exp x = 1 / Real.exp (-x) := by
    rw [Real.exp_neg]
    field_simp
  rw [h2]
  exact one_div_le_one_div_of_le h0 h1

lemma gbm_spread (mu sigma last : ℝ) (d : ℕ) :
    (gbmDay mu sigma last d).p90 - (gbmDay mu sigma last d).p10
      = last * Real.exp (mu * d) * (2 * Real.sinh (z90 * (sigma * Real.sqrt d))) := by
  have h10 : z10 * (sigma * Real.sqrt d) = -(z90 * (sigma * Real.sqrt d)) := by
    simp only [z10, z90]
    ring
  simp only [gbmDay, h10, Real.sinh_eq]
  rw [show mu * d + z90 * (sigma * Real.sqrt d)
        = mu * d + z90 * (sigma * Real.sqrt d) from rfl,
      Real.exp_add, Real.exp_add]
  ring

lemma predictCore_getD (st : Option QFWeights) (recent : List ℝ) (h i : ℕ)
    (hi : i < h) (z : QuantilePrediction) :
    (predictCore st recent h).getD i z
      = roundPred (gbmDay (predictMuSigma st recent).1 (predictMuSigma st recent).2
          (lastD recent) (i + 1)) := by
  have hlen : i < (predictCore st recent h).length := by
    simpa [predictCore] using hi
  rw [List.getD_eq_getElem _ _ hlen]
  simp [predictCore]

/-- C4 (amended): for a fixed model state with `mu ≥ 0` and `sigma > 0` and a
positive last price, the unrounded quantile spread `p90 - p10` at horizon day
5 is at least the spread at day 1, and the spreads of the returned
(4-decimal-rounded) predictions satisfy the same inequality up to the rounding
slack `2·10⁻⁴`.  (The original claim, which allows any drift, fails: see the
counterexample.) -/
theorem C4_spread_horizon_amended
    (w : QFWeights) (recent : List ℝ)
    (hmu : 0 ≤ w.mu) (hs : 0 < w.sigma) (hlast : 0 < lastD recent) :
    predictQF qfConfigDefault (some w) recent 5
      = Except.ok (predictCore (some w) recent 5) ∧
    (gbmDay w.mu w.sigma (lastD recent) 1).p90 - (gbmDay w.mu w.sigma (lastD recent) 1).p10
      ≤ (gbmDay w.mu w.sigma (lastD recent) 5).p90
        - (gbmDay w.mu w.sigma (lastD recent) 5).p10 ∧
    predSpread (predictCore (some w) recent 5) 0 - 2 / 10 ^ 4
      ≤ predSpread (predictCore (some w) recent 5) 4 := by
  have hsq1 : Real.sqrt (1 : ℕ) = 1 := by
    norm_num
  have hsq5 : (1 : ℝ) ≤ Real.sqrt (5 : ℕ) := by
    rw [show ((5 : ℕ) : ℝ) = 5 by norm_num]
    nlinarith [Real.sq_sqrt (by norm_num : (0:ℝ) ≤ 5), Real.sqrt_nonneg (5:ℝ)]
  have hspread : (gbmDay w.mu w.sigma (lastD recent) 1).p90
        - (gbmDay w.mu w.sigma (lastD recent) 1).p10
      ≤ (gbmDay w.mu w.sigma (lastD recent) 5).p90
        - (gbmDay w.mu w.sigma (lastD recent) 5).p10 := by
    rw [gbm_spread, gbm_spread, hsq1]
    have hz : (0 : ℝ) < z90 := by norm_num [z90]
    have harg1 : 0 < z90 * (w.sigma * 1) := by positivity
    have hargle : z90 * (w.sigma * 1) ≤ z90 * (w.sigma * Real.sqrt (5 : ℕ)) := by
      have : w.sigma * 1 ≤ w.sigma * Real.sqrt (5 : ℕ) := by
        apply mul_le_mul_of_nonneg_left hsq5 hs.le
      exact mul_le_mul_of_nonneg_left this hz.le
    have hsinh : Real.sinh (z90 * (w.sigma * 1)) ≤ Real.sinh (z90 * (w.sigma * Real.sqrt (5 : ℕ))) :=
      Real.sinh_le_sinh.mpr hargle
    have hsinhpos : 0 < Real.sinh (z90 * (w.sigma * 1)) := Real.sinh_pos_iff.mpr harg1
    have hexple : Real.exp (w.mu * (1 : ℕ)) ≤ Real.exp (w.mu * (5 : ℕ)) := by
      apply Real.exp_le_exp.mpr
      have : ((1 : ℕ) : ℝ) ≤ ((5 : ℕ) : ℝ) := by norm_num
      nlinarith
    have hexppos : 0 < Real.exp (w.mu * (1 : ℕ)) := Real.exp_pos _
    have hmul : Real.exp (w.mu * (1 : ℕ)) * (2 * Real.sinh (z90 * (w.sigma * 1)))
        ≤ Real.exp (w.mu * (5 : ℕ)) * (2 * Real.sinh (z90 * (w.sigma * Real.sqrt (5 : ℕ)))) := by
      apply mul_le_mul hexple (by linarith) (by linarith) (Real.exp_pos _).le
    calc lastD recent * Real.exp (w.mu * (1 : ℕ)) * (2 * Real.sinh (z90 * (w.sigma * 1)))
        = lastD recent * (Real.exp (w.mu * (1 : ℕ)) * (2 * Real.sinh (z90 * (w.sigma * 1)))) := by
          ring
      _ ≤ lastD recent * (Real.exp (w.mu * (5 : ℕ))
            * (2 * Real.sinh (z90 * (w.sigma * Real.sqrt (5 : ℕ))))) := by
          exact mul_le_mul_of_nonneg_left hmul hlast.le
      _ = lastD recent * Real.exp (w.mu * (5 : ℕ))
            * (2 * Real.sinh (z90 * (w.sigma * Real.sqrt (5 : ℕ)))) := by
          ring
  refine ⟨by rw [predictQF, if_neg]; simp [qfConfigDefault], hspread, ?_⟩
  rw [predSpread, predSpread, predictCore_getD _ _ 5 0 (by norm_num) _,
    predictCore_getD _ _ 5 4 (by norm_num) _]
  simp only [roundPred, predictMuSigma]
  rw [show (0 + 1 : ℕ) = 1 from rfl, show (4 + 1 : ℕ) = 5 from rfl]
  have b1 := roundTo_le 4 ((gbmDay w.mu w.sigma (lastD recent) 1).p90)
  have b2 := lt_roundTo 4 ((gbmDay w.mu w.sigma (lastD recent) 1).p10)
  have b3 := lt_roundTo 4 ((gbmDay w.mu w.sigma (lastD recent) 5).p90)
  have b4 := roundTo_le 4 ((gbmDay w.mu w.sigma (lastD recent) 5).p10)
  linarith

/-- Counterexample to C4 as stated: with the fixed model state
`mu = -1, sigma = 0.01` and last price 100 (`sigma > 0` and the price is
positive), the returned day-5 spread is strictly smaller than the day-1
spread — the drift factor `exp(mu*d)` shrinks faster than the `sqrt(d)`
volatility scaling grows. -/
theorem C4_counterexample :
    predSpread (predictCore (some ⟨-1, 1 / 100, 100⟩) [(100 : ℝ)] 5) 4
      < predSpread (predictCore (some ⟨-1, 1 / 100, 100⟩) [(100 : ℝ)] 5) 0 := by
  have hlast : lastD [(100 : ℝ)] = 100 := by simp [lastD]
  rw [predSpread, predSpread, predictCore_getD _ _ 5 0 (by norm_num) _,
    predictCore_getD _ _ 5 4 (by norm_num) _]
  simp only [roundPred, predictMuSigma, hlast]
  have h01 : (0 + 1 : ℕ) = 1 := by norm_num
  have h45 : (4 + 1 : ℕ) = 5 := by norm_num
  rw [h01, h45]
  -- Day-5 quantiles: p90 is at most 0.6938 and p10 is positive.
  have hsq5 : Real.sqrt ((5 : ℕ) : ℝ) < 2.2361 := by
    rw [show ((5 : ℕ) : ℝ) = 5 by norm_num, Real.sqrt_lt' (by norm_num)]
    norm_num
  have hsq5n : 0 ≤ Real.sqrt ((5 : ℕ) : ℝ) := Real.sqrt_nonneg _
  have hA5 : (gbmDay (-1 : ℝ) (1 / 100) 100 5).p90 ≤ 0.6938 := by
    simp only [gbmDay]
    have harg : (-1 : ℝ) * ((5 : ℕ) : ℝ) + z90 * (1 / 100 * Real.sqrt ((5 : ℕ) : ℝ))
        ≤ -5 + 0.0287 := by
      simp only [z90]
      rw [show ((5 : ℕ) : ℝ) = 5 by norm_num]
      rw [show ((5 : ℕ) : ℝ) = 5 by norm_num] at hsq5 hsq5n
      nlinarith
    have h1 : Real.exp ((-1 : ℝ) * ((5 : ℕ) : ℝ) + z90 * (1 / 100 * Real.sqrt ((5 : ℕ) : ℝ)))
        ≤ Real.exp (-5 + 0.0287) := Real.exp_le_exp.mpr harg
    have hsplit : Real.exp (-5 + 0.0287 : ℝ) = Real.exp 0.0287 * Real.exp (-5 : ℝ) := by
      rw [← Real.exp_add]
      norm_num
    have h287 : Real.exp (0.0287 : ℝ) ≤ 1.0296 :=
      le_trans (exp_le_inv_one_sub (by norm_num)) (by norm_num)
    have h148 : (148.41 : ℝ) < Real.exp 5 := by
      have hp : Real.exp (5 : ℝ) = Real.exp 1 ^ 5 := by
        rw [show (5 : ℝ) = ((5 : ℕ) : ℝ) * 1 by norm_num, Real.exp_nat_mul]
      rw [hp]
      calc (148.41 : ℝ) < 2.7182818283 ^ 5 := by norm_num
        _ ≤ Real.exp 1 ^ 5 := by
            apply pow_le_pow_left₀ (by norm_num) Real.exp_one_gt_d9.le
    have hm5 : Real.exp (-5 : ℝ) < 1 / 148.41 := by
      rw [Real.exp_neg, inv_eq_one_div]
      exact one_div_lt_one_div_of_lt (by norm_num) h148
    have hprod : Real.exp 0.0287 * Real.exp (-5 : ℝ) ≤ 1.0296 * (1 / 148.41) := by
      apply mul_le_mul h287 hm5.le (Real.exp_pos _).le (by norm_num)
    calc (100 : ℝ) * Real.exp ((-1 : ℝ) * ((5 : ℕ) : ℝ)
            + z90 * (1 / 100 * Real.sqrt ((5 : ℕ) : ℝ)))
        ≤ 100 * (Real.exp 0.0287 * Real.exp (-5 : ℝ)) := by
          rw [← hsplit]
          exact mul_le_mul_of_nonneg_left h1 (by norm_num)
      _ ≤ 100 * (1.0296 * (1 / 148.41)) := mul_le_mul_of_nonneg_left hprod (by norm_num)
      _ ≤ 0.6938 := by norm_num
  have hB5 : 0 < (gbmDay (-1 : ℝ) (1 / 100) 100 5).p10 := by
    simp only [gbmDay]
    positivity
  -- Day-1 spread: strictly more than 0.9429 before rounding.
  have hsp1 : (0.9429 : ℝ) < (gbmDay (-1 : ℝ) (1 / 100) 100 1).p90
      - (gbmDay (-1 : ℝ) (1 / 100) 100 1).p10 := by
    rw [gbm_spread]
    have hsq1 : Real.sqrt ((1 : ℕ) : ℝ) = 1 := by
      rw [show ((1 : ℕ) : ℝ) = 1 by norm_num, Real.sqrt_one]
    rw [hsq1]
    have hsinh : (0.012816 : ℝ) < Real.sinh (z90 * (1 / 100 * 1)) := by
      rw [show z90 * (1 / 100 * 1) = 0.012816 by norm_num [z90]]
      exact Real.self_lt_sinh_iff.mpr (by norm_num)
    have hexp1 : (0.367879441 : ℝ) < Real.exp ((-1 : ℝ) * ((1 : ℕ) : ℝ)) := by
      rw [show (-1 : ℝ) * ((1 : ℕ) : ℝ) = -1 by norm_num, Real.exp_neg, inv_eq_one_div]
      have h2 : (1 : ℝ) / 2.7182818286 < 1 / Real.exp 1 :=
        one_div_lt_one_div_of_lt (Real.exp_pos 1) Real.exp_one_lt_d9
      have h3 : (0.367879441 : ℝ) < 1 / 2.7182818286 := by norm_num
      linarith
    nlinarith [hsinh, hexp1]
  -- Rounding bounds and conclusion.
  have r1 := lt_roundTo 4 ((gbmDay (-1 : ℝ) (1 / 100) 100 1).p90)
  have r2 := roundTo_le 4 ((gbmDay (-1 : ℝ) (1 / 100) 100 1).p10)
  have r3 := roundTo_le 4 ((gbmDay (-1 : ℝ) (1 / 100) 100 5).p90)
  have r4n := roundTo_nonneg (n := 4) hB5.le
  linarith

/-- Witness for C4 (amended) at the concrete state `mu = 0, sigma = 0.01`,
recent window `[100]`. -/
theorem C4_spread_horizon_amended_witness :
    predictQF qfConfigDefault (some ⟨0, 1 / 100, 100⟩) [(100 : ℝ)] 5
      = Except.ok (predictCore (some ⟨0, 1 / 100, 100⟩) [(100 : ℝ)] 5) ∧
    (gbmDay (QFWeights.mk 0 (1 / 100) 100).mu (QFWeights.mk 0 (1 / 100) 100).sigma
        (lastD [(100 : ℝ)]) 1).p90
      - (gbmDay (QFWeights.mk 0 (1 / 100) 100).mu (QFWeights.mk 0 (1 / 100) 100).sigma
        (lastD [(100 : ℝ)]) 1).p10
      ≤ (gbmDay (QFWeights.mk 0 (1 / 100) 100).mu (QFWeights.mk 0 (1 / 100) 100).sigma
        (lastD [(100 : ℝ)]) 5).p90
        - (gbmDay (QFWeights.mk 0 (1 / 100) 100).mu (QFWeights.mk 0 (1 / 100) 100).sigma
          (lastD [(100 : ℝ)]) 5).p10 ∧
    predSpread (predictCore (some ⟨0, 1 / 100, 100⟩) [(100 : ℝ)] 5) 0 - 2 / 10 ^ 4
      ≤ predSpread (predictCore (some ⟨0, 1 / 100, 100⟩) [(100 : ℝ)] 5) 4 :=
  C4_spread_horizon_amended ⟨0, 1 / 100, 100⟩ [100] (by norm_num) (by norm_num)
    (by simp [lastD])

/-! ### Claims C2 and C3: the execution trigger -/

lemma decisionMatrix_enter (t : ExecutionTrigger) (qp : QuantilePrediction)
    (lp : LiquidityPrediction) (price : ℝ)
    (h1 : t.price_up_thr ≤ lp.price_up_prob) (h2 : t.liq_thr ≤ lp.liquidity_high_prob) :
    decisionMatrix t qp lp price =
      ⟨"enter", min lp.price_up_prob lp.liquidity_high_prob,
       "Median forecast +" ++ fmt1f (upsideFrac qp price * 100) ++ "% with "
         ++ fmt0f (lp.liquidity_high_prob * 100) ++ "% high-liquidity probability",
       if 0.7 < lp.liquidity_high_prob then ("intraday") else ("next_open")⟩ := by
  simp only [decisionMatrix]
  rw [if_pos ⟨h1, h2⟩]

lemma decisionMatrix_defer_up (t : ExecutionTrigger) (qp : QuantilePrediction)
    (lp : LiquidityPrediction) (price : ℝ)
    (h1 : t.price_up_thr ≤ lp.price_up_prob) (h2 : ¬t.liq_thr ≤ lp.liquidity_high_prob) :
    decisionMatrix t qp lp price =
      ⟨"defer", lp.price_up_prob * 0.5,
       "Positive outlook (+" ++ fmt1f (upsideFrac qp price * 100) ++ "%) but liquidity only "
         ++ fmt0f (lp.liquidity_high_prob * 100) ++ "% — defer execution",
       "wait_1_day"⟩ := by
  simp only [decisionMatrix]
  rw [if_neg (fun hc => h2 hc.2), if_pos ⟨h1, h2⟩]

lemma decisionMatrix_exit (t : ExecutionTrigger) (qp : QuantilePrediction)
    (lp : LiquidityPrediction) (price : ℝ)
    (h1 : ¬t.price_up_thr ≤ lp.price_up_prob) (h2 : t.price_down_thr ≤ lp.price_down_prob)
    (h3 : t.liq_thr ≤ lp.liquidity_high_prob) :
    decisionMatrix t qp lp price =
      ⟨"exit", min lp.price_down_prob lp.liquidity_high_prob,
       "Median forecast " ++ fmt1f (upsideFrac qp price * 100)
         ++ "% with adequate liquidity — consider exiting",
       if spreadFrac qp price < t.spread_max then ("intraday") else ("next_close")⟩ := by
  simp only [decisionMatrix]
  rw [if_neg (fun hc => h1 hc.1), if_neg (fun hc => h1 hc.1), if_pos ⟨h2, h3⟩]

lemma decisionMatrix_defer_down (t : ExecutionTrigger) (qp : QuantilePrediction)
    (lp : LiquidityPrediction) (price : ℝ)
    (h1 : ¬t.price_up_thr ≤ lp.price_up_prob) (h2 : t.price_down_thr ≤ lp.price_down_prob)
    (h3 : ¬t.liq_thr ≤ lp.liquidity_high_prob) :
    decisionMatrix t qp lp price =
      ⟨"defer", lp.price_down_prob * 0.4,
       "Negative outlook but poor liquidity — defer to avoid slippage",
       "wait_1_day"⟩ := by
  simp only [decisionMatrix]
  rw [if_neg (fun hc => h1 hc.1), if_neg (fun hc => h1 hc.1),
    if_neg (fun hc => h3 hc.2), if_pos ⟨h2, h3⟩]

lemma decisionMatrix_hold (t : ExecutionTrigger) (qp : QuantilePrediction)
    (lp : LiquidityPrediction) (price : ℝ)
    (h1 : ¬t.price_up_thr ≤ lp.price_up_prob) (h2 : ¬t.price_down_thr ≤ lp.price_down_prob) :
    decisionMatrix t qp lp price =
      ⟨"hold", 1 - max lp.price_up_prob lp.price_down_prob,
       "No strong directional conviction", "next_open"⟩ := by
  simp only [decisionMatrix]
  rw [if_neg (fun hc => h1 hc.1), if_neg (fun hc => h1 hc.1),
    if_neg (fun hc => h2 hc.1), if_neg (fun hc => h2 hc.1)]

lemma evaluate_not_overridden (t : ExecutionTrigger) (qp : QuantilePrediction)
    (lp : LiquidityPrediction) (price : ℝ)
    (h : ¬(t.spread_max < spreadFrac qp price ∧
        ((decisionMatrix t qp lp price).signal = "enter" ∨
         (decisionMatrix t qp lp price).signal = "exit"))) :
    (evaluate t qp lp price).signal = (decisionMatrix t qp lp price).signal ∧
    (evaluate t qp lp price).confidence = roundTo 4 (decisionMatrix t qp lp price).confidence ∧
    (evaluate t qp lp price).reason = (decisionMatrix t qp lp price).reason ∧
    (evaluate t qp lp price).timing = (decisionMatrix t qp lp price).timing := by
  simp only [evaluate]
  rw [if_neg h, if_neg h, if_neg h]
  exact ⟨by trivial, by trivial, by trivial, by trivial⟩

lemma evaluate_overridden (t : ExecutionTrigger) (qp : QuantilePrediction)
    (lp : LiquidityPrediction) (price : ℝ)
    (h1 : t.spread_max < spreadFrac qp price)
    (h2 : (decisionMatrix t qp lp price).signal = "enter" ∨
          (decisionMatrix t qp lp price).signal = "exit") :
    (evaluate t qp lp price).signal = "hold" ∧
    (evaluate t qp lp price).confidence = roundTo 4 (decisionMatrix t qp lp price).confidence ∧
    (evaluate t qp lp price).reason
      = (decisionMatrix t qp lp price).reason ++ overrideNote (spreadFrac qp price) ∧
    (evaluate t qp lp price).timing = "wait_1_day" := by
  simp only [evaluate]
  rw [if_pos ⟨h1, h2⟩, if_pos ⟨h1, h2⟩, if_pos ⟨h1, h2⟩]
  exact ⟨by trivial, by trivial, by trivial, by trivial⟩

/-- C2 (amended): with default thresholds, whenever the quantile spread
fraction does not exceed `spread_max` (so the uncertainty override stays
silent), `evaluate` follows the decision table with first match winning, the
returned confidence being the table's value rounded to 4 decimals:
enter / min(up, liq) / intraday-or-next_open; defer / up·0.5 / wait_1_day;
exit / min(down, liq) / intraday-or-next_close; defer / down·0.4 /
wait_1_day; hold / 1 − max(up, down) / next_open.  (The original claim, with
no restriction on the spread, fails: see the counterexample.) -/
theorem C2_decision_table
    (qp : QuantilePrediction) (lp : LiquidityPrediction) (price : ℝ)
    (hub : 0 ≤ lp.price_up_prob ∧ lp.price_up_prob ≤ 1)
    (hfb : 0 ≤ lp.price_flat_prob ∧ lp.price_flat_prob ≤ 1)
    (hdb : 0 ≤ lp.price_down_prob ∧ lp.price_down_prob ≤ 1)
    (hlb : 0 ≤ lp.liquidity_high_prob ∧ lp.liquidity_high_prob ≤ 1)
    (hlo : 0 ≤ lp.liquidity_low_prob ∧ lp.liquidity_low_prob ≤ 1)
    (hsum : lp.price_up_prob + lp.price_flat_prob + lp.price_down_prob = 1)
    (hprice : 0 < price)
    (hspread : spreadFrac qp price ≤ 0.08) :
    ((0.55 ≤ lp.price_up_prob → 0.50 ≤ lp.liquidity_high_prob →
      (evaluate defaultTrigger qp lp price).signal = "enter" ∧
      (evaluate defaultTrigger qp lp price).confidence
        = roundTo 4 (min lp.price_up_prob lp.liquidity_high_prob) ∧
      (evaluate defaultTrigger qp lp price).timing
        = if 0.7 < lp.liquidity_high_prob then ("intraday") else ("next_open")) ∧
    (0.55 ≤ lp.price_up_prob → lp.liquidity_high_prob < 0.50 →
      (evaluate defaultTrigger qp lp price).signal = "defer" ∧
      (evaluate defaultTrigger qp lp price).confidence = roundTo 4 (lp.price_up_prob * 0.5) ∧
      (evaluate defaultTrigger qp lp price).timing = "wait_1_day") ∧
    (lp.price_up_prob < 0.55 → 0.55 ≤ lp.price_down_prob → 0.50 ≤ lp.liquidity_high_prob →
      (evaluate defaultTrigger qp lp price).signal = "exit" ∧
      (evaluate defaultTrigger qp lp price).confidence
        = roundTo 4 (min lp.price_down_prob lp.liquidity_high_prob) ∧
      (evaluate defaultTrigger qp lp price).timing
        = if spreadFrac qp price < 0.08 then ("intraday") else ("next_close")) ∧
    (lp.price_up_prob < 0.55 → 0.55 ≤ lp.price_down_prob → lp.liquidity_high_prob < 0.50 →
      (evaluate defaultTrigger qp lp price).signal = "defer" ∧
      (evaluate defaultTrigger qp lp price).confidence = roundTo 4 (lp.price_down_prob * 0.4) ∧
      (evaluate defaultTrigger qp lp price).timing = "wait_1_day") ∧
    (lp.price_up_prob < 0.55 → lp.price_down_prob < 0.55 →
      (evaluate defaultTrigger qp lp price).signal = "hold" ∧
      (evaluate defaultTrigger qp lp price).confidence
        = roundTo 4 (1 - max lp.price_up_prob lp.price_down_prob) ∧
      (evaluate defaultTrigger qp lp price).timing = "next_open")) := by
  have hov : ¬(defaultTrigger.spread_max < spreadFrac qp price ∧
      ((decisionMatrix defaultTrigger qp lp price).signal = "enter" ∨
       (decisionMatrix defaultTrigger qp lp price).signal = "exit")) := by
    intro hc
    exact absurd hc.1 (not_lt.mpr hspread)
  have he := evaluate_not_overridden defaultTrigger qp lp price hov
  refine ⟨?_, ?_, ?_, ?_, ?_⟩
  · intro hu hl
    rw [he.1, he.2.1, he.2.2.2, decisionMatrix_enter defaultTrigger qp lp price hu hl]
    exact ⟨by trivial, by trivial, by trivial⟩
  · intro hu hl
    rw [he.1, he.2.1, he.2.2.2,
      decisionMatrix_defer_up defaultTrigger qp lp price hu (not_le.mpr hl)]
    exact ⟨rfl, rfl, rfl⟩
  · intro hu hd hl
    rw [he.1, he.2.1, he.2.2.2,
      decisionMatrix_exit defaultTrigger qp lp price (not_le.mpr hu) hd hl]
    exact ⟨rfl, rfl, rfl⟩
  · intro hu hd hl
    rw [he.1, he.2.1, he.2.2.2,
      decisionMatrix_defer_down defaultTrigger qp lp price (not_le.mpr hu) hd (not_le.mpr hl)]
    exact ⟨rfl, rfl, rfl⟩
  · intro hu hd
    rw [he.1, he.2.1, he.2.2.2,
      decisionMatrix_hold defaultTrigger qp lp price (not_le.mpr hu) (not_le.mpr hd)]
    exact ⟨rfl, rfl, rfl⟩

/-- Counterexample to C2 as stated: at `p10 = 90, p50 = 103, p90 = 110`,
current price 100 (a 20% quantile spread), `price_up_prob = 0.70 ≥ 0.55` and
`liquidity_high_prob = 0.85 ≥ 0.50`, the decision table row prescribes
"enter", but `evaluate` returns "hold" — the uncertainty override fires. -/
theorem C2_counterexample :
    (0.55 : ℝ) ≤ 0.70 ∧ (0.50 : ℝ) ≤ 0.85 ∧
    (evaluate defaultTrigger ⟨1, 90, 103, 110⟩ ⟨0.70, 0.10, 0.20, 0.85, 0.15⟩ 100).signal
      = "hold" := by
  refine ⟨by norm_num, by norm_num, ?_⟩
  have hsf : defaultTrigger.spread_max
      < spreadFrac (⟨1, 90, 103, 110⟩ : QuantilePrediction) 100 := by
    show (0.08 : ℝ) < ((110 : ℝ) - 90) / (100 + 1e-9)
    rw [lt_div_iff₀ (by norm_num)]
    norm_num
  have hsig : (decisionMatrix defaultTrigger ⟨1, 90, 103, 110⟩
      ⟨0.70, 0.10, 0.20, 0.85, 0.15⟩ 100).signal = "enter" := by
    rw [decisionMatrix_enter defaultTrigger _ _ _ (by norm_num [defaultTrigger]) (by norm_num [defaultTrigger])]
  exact (evaluate_overridden defaultTrigger _ _ _ hsf (Or.inl hsig)).1

/-- Witness for C2 (amended) at the spec's example: quantiles 99/103/105,
price 100, up 0.70, liquidity 0.85 — enter, confidence 0.70, intraday. -/
theorem C2_decision_table_witness :
    (evaluate defaultTrigger ⟨1, 99, 103, 105⟩ ⟨0.70, 0.10, 0.20, 0.85, 0.15⟩ 100).signal
      = "enter" ∧
    (evaluate defaultTrigger ⟨1, 99, 103, 105⟩ ⟨0.70, 0.10, 0.20, 0.85, 0.15⟩ 100).confidence
      = 0.70 ∧
    (evaluate defaultTrigger ⟨1, 99, 103, 105⟩ ⟨0.70, 0.10, 0.20, 0.85, 0.15⟩ 100).timing
      = "intraday" := by
  have h := (C2_decision_table ⟨1, 99, 103, 105⟩ ⟨0.70, 0.10, 0.20, 0.85, 0.15⟩ 100
    (by norm_num) (by norm_num) (by norm_num) (by norm_num) (by norm_num) (by norm_num)
    (by norm_num)
    (by
      show ((105 : ℝ) - 99) / (100 + 1e-9) ≤ 0.08
      rw [div_le_iff₀ (by norm_num)]
      norm_num)).1 (by norm_num) (by norm_num)
  refine ⟨h.1, ?_, ?_⟩
  · rw [h.2.1]
    rw [show min (0.70 : ℝ) 0.85 = 0.70 by norm_num,
      roundTo_eq 4 0.70 7000 (by norm_num) (by norm_num)]
    norm_num
  · rw [h.2.2, if_pos (by norm_num : (0.7 : ℝ) < 0.85)]

/-- C3: whenever the decision matrix yields enter or exit but the quantile
spread fraction `spread_frac = (p90 - p10)/(price + 1e-9)` exceeds
`spread_max`, `evaluate` returns signal hold with timing wait_1_day and the
reason text extended by the override marker; consequently `evaluate` never
returns enter or exit when the spread fraction exceeds `spread_max`. -/
theorem C3_spread_override (t : ExecutionTrigger) (qp : QuantilePrediction)
    (lp : LiquidityPrediction) (price : ℝ)
    (hsf : t.spread_max < spreadFrac qp price) :
    (((decisionMatrix t qp lp price).signal = "enter" ∨
      (decisionMatrix t qp lp price).signal = "exit") →
      (evaluate t qp lp price).signal = "hold" ∧
      (evaluate t qp lp price).timing = "wait_1_day" ∧
      (evaluate t qp lp price).reason
        = (decisionMatrix t qp lp price).reason ++ overrideNote (spreadFrac qp price)) ∧
    (evaluate t qp lp price).signal ≠ "enter" ∧
    (evaluate t qp lp price).signal ≠ "exit" := by
  constructor
  · intro h2
    have he := evaluate_overridden t qp lp price hsf h2
    exact ⟨he.1, he.2.2.2, he.2.2.1⟩
  · by_cases h2 : (decisionMatrix t qp lp price).signal = "enter" ∨
      (decisionMatrix t qp lp price).signal = "exit"
    · have he := evaluate_overridden t qp lp price hsf h2
      rw [he.1]
      exact ⟨by decide, by decide⟩
    · have he := evaluate_not_overridden t qp lp price (fun hc => h2 hc.2)
      rw [he.1]
      push_neg at h2
      exact h2

/-- Witness for C3 at quantiles 90/103/110 (20% spread), price 100, up 0.70,
liquidity 0.60: the matrix row is enter, and the override forces hold /
wait_1_day. -/
theorem C3_spread_override_witness :
    (evaluate defaultTrigger ⟨1, 90, 103, 110⟩ ⟨0.70, 0.10, 0.20, 0.60, 0.40⟩ 100).signal
      = "hold" ∧
    (evaluate defaultTrigger ⟨1, 90, 103, 110⟩ ⟨0.70, 0.10, 0.20, 0.60, 0.40⟩ 100).timing
      = "wait_1_day" := by
  have hsf : defaultTrigger.spread_max
      < spreadFrac (⟨1, 90, 103, 110⟩ : QuantilePrediction) 100 := by
    show (0.08 : ℝ) < ((110 : ℝ) - 90) / (100 + 1e-9)
    rw [lt_div_iff₀ (by norm_num)]
    norm_num
  have h := C3_spread_override defaultTrigger ⟨1, 90, 103, 110⟩
    ⟨0.70, 0.10, 0.20, 0.60, 0.40⟩ 100 hsf
  have hsig : (decisionMatrix defaultTrigger ⟨1, 90, 103, 110⟩
      ⟨0.70, 0.10, 0.20, 0.60, 0.40⟩ 100).signal = "enter" := by
    rw [decisionMatrix_enter defaultTrigger _ _ _ (by norm_num [defaultTrigger]) (by norm_num [defaultTrigger])]
  exact ⟨(h.1 (Or.inl hsig)).1, (h.1 (Or.inl hsig)).2.1⟩

/-! ### Claim C6: confidence intervals -/

lemma zTarget50 : zTarget 0.50 = 0.6745 := by
  have h : roundTo 2 (0.50 : ℝ) = 0.50 := by
    rw [roundTo_eq 2 0.50 50 (by norm_num) (by norm_num)]
    norm_num
  simp only [zTarget, h]
  norm_num

lemma zTarget80 : zTarget 0.80 = 1.2816 := by
  have h : roundTo 2 (0.80 : ℝ) = 0.80 := by
    rw [roundTo_eq 2 0.80 80 (by norm_num) (by norm_num)]
    norm_num
  simp only [zTarget, h]
  norm_num

lemma zTarget90 : zTarget 0.90 = 1.6449 := by
  have h : roundTo 2 (0.90 : ℝ) = 0.90 := by
    rw [roundTo_eq 2 0.90 90 (by norm_num) (by norm_num)]
    norm_num
  simp only [zTarget, h]
  norm_num

lemma zTarget95 : zTarget 0.95 = 1.9600 := by
  have h : roundTo 2 (0.95 : ℝ) = 0.95 := by
    rw [roundTo_eq 2 0.95 95 (by norm_num) (by norm_num)]
    norm_num
  simp only [zTarget, h]
  norm_num

lemma zTarget99 : zTarget 0.99 = 2.5758 := by
  have h : roundTo 2 (0.99 : ℝ) = 0.99 := by
    rw [roundTo_eq 2 0.99 99 (by norm_num) (by norm_num)]
    norm_num
  simp only [zTarget, h]
  norm_num

lemma ci_at_80 (p10 p90 : ℝ) :
    confidence_interval p10 p90 0.80 = (roundTo 4 p10, roundTo 4 p90) := by
  rw [confidence_interval, if_pos]
  norm_num

lemma ci_off_80 (p10 p90 c : ℝ) (h : ¬|c - 0.80| < 1e-6) :
    confidence_interval p10 p90 c =
      (roundTo 4 ((p10 + p90) / 2 - ciScaled p10 p90 c),
       roundTo 4 ((p10 + p90) / 2 + ciScaled p10 p90 c)) := by
  rw [confidence_interval, if_neg h]

lemma ciScaled_at_80 (p10 p90 : ℝ) : ciScaled p10 p90 0.80 = (p90 - p10) / 2 := by
  rw [ciScaled, zTarget80]
  norm_num

/-- C6 (amended): `confidence_interval(p10, p90, 0.80)` returns `(p10, p90)`
each rounded to 4 decimals — hence `(90, 110)` exactly at the spec's example —
and for `p10 < p90` the interval half-width before the output rounding
strictly increases across the confidence levels 0.50, 0.80, 0.90, 0.95, 0.99,
while the widths of the returned (rounded) intervals are monotonically
nondecreasing across the same levels.  (The original claim — `(p10, p90)`
returned unchanged for every input and the returned widths strictly
increasing — fails: see the counterexample.) -/
theorem C6_confidence_interval_amended :
    (∀ p10 p90 : ℝ, confidence_interval p10 p90 0.80 = (roundTo 4 p10, roundTo 4 p90)) ∧
    confidence_interval 90 110 0.80 = (90, 110) ∧
    (∀ p10 p90 : ℝ, p10 < p90 →
      (ciScaled p10 p90 0.50 < ciScaled p10 p90 0.80 ∧
       ciScaled p10 p90 0.80 < ciScaled p10 p90 0.90 ∧
       ciScaled p10 p90 0.90 < ciScaled p10 p90 0.95 ∧
       ciScaled p10 p90 0.95 < ciScaled p10 p90 0.99) ∧
      (ciWidth p10 p90 0.50 ≤ ciWidth p10 p90 0.80 ∧
       ciWidth p10 p90 0.80 ≤ ciWidth p10 p90 0.90 ∧
       ciWidth p10 p90 0.90 ≤ ciWidth p10 p90 0.95 ∧
       ciWidth p10 p90 0.95 ≤ ciWidth p10 p90 0.99)) := by
  refine ⟨ci_at_80, ?_, ?_⟩
  · rw [ci_at_80, roundTo_eq 4 90 900000 (by norm_num) (by norm_num),
      roundTo_eq 4 110 1100000 (by norm_num) (by norm_num)]
    norm_num
  · intro p10 p90 hlt
    have hw : 0 < (p90 - p10) / 2 := by linarith
    have hz : ∀ c z : ℝ, zTarget c = z → ciScaled p10 p90 c = (p90 - p10) / 2 * (z / 1.2816) := by
      intro c z hc
      rw [ciScaled, hc]
    have h50 := hz 0.50 0.6745 zTarget50
    have h80 := hz 0.80 1.2816 zTarget80
    have h90 := hz 0.90 1.6449 zTarget90
    have h95 := hz 0.95 1.9600 zTarget95
    have h99 := hz 0.99 2.5758 zTarget99
    have hchain : ciScaled p10 p90 0.50 < ciScaled p10 p90 0.80 ∧
        ciScaled p10 p90 0.80 < ciScaled p10 p90 0.90 ∧
        ciScaled p10 p90 0.90 < ciScaled p10 p90 0.95 ∧
        ciScaled p10 p90 0.95 < ciScaled p10 p90 0.99 := by
      rw [h50, h80, h90, h95, h99]
      refine ⟨?_, ?_, ?_, ?_⟩ <;> nlinarith
    refine ⟨hchain, ?_⟩
    have habs : ∀ c : ℝ, c = 0.50 ∨ c = 0.90 ∨ c = 0.95 ∨ c = 0.99 → ¬|c - 0.80| < 1e-6 := by
      intro c hc
      rcases hc with rfl | rfl | rfl | rfl
      · intro h
        rw [abs_of_nonpos (by norm_num)] at h
        norm_num at h
      · intro h
        rw [abs_of_nonneg (by norm_num)] at h
        norm_num at h
      · intro h
        rw [abs_of_nonneg (by norm_num)] at h
        norm_num at h
      · intro h
        rw [abs_of_nonneg (by norm_num)] at h
        norm_num at h
    have hwidth : ∀ c : ℝ, ¬|c - 0.80| < 1e-6 →
        ciWidth p10 p90 c = roundTo 4 ((p10 + p90) / 2 + ciScaled p10 p90 c)
          - roundTo 4 ((p10 + p90) / 2 - ciScaled p10 p90 c) := by
      intro c hc
      rw [ciWidth, ci_off_80 p10 p90 c hc]
    have hwidth80 : ciWidth p10 p90 0.80 = roundTo 4 ((p10 + p90) / 2 + ciScaled p10 p90 0.80)
        - roundTo 4 ((p10 + p90) / 2 - ciScaled p10 p90 0.80) := by
      rw [ciWidth, ci_at_80, ciScaled_at_80,
        show (p10 + p90) / 2 + (p90 - p10) / 2 = p90 by ring,
        show (p10 + p90) / 2 - (p90 - p10) / 2 = p10 by ring]
    have hmono : ∀ s s' : ℝ, s ≤ s' →
        roundTo 4 ((p10 + p90) / 2 + s) - roundTo 4 ((p10 + p90) / 2 - s)
          ≤ roundTo 4 ((p10 + p90) / 2 + s') - roundTo 4 ((p10 + p90) / 2 - s') := by
      intro s s' hs
      have m1 := roundTo_mono (n := 4) (show (p10 + p90) / 2 + s ≤ (p10 + p90) / 2 + s' by linarith)
      have m2 := roundTo_mono (n := 4) (show (p10 + p90) / 2 - s' ≤ (p10 + p90) / 2 - s by linarith)
      linarith
    rw [hwidth 0.50 (habs 0.50 (by norm_num)), hwidth 0.90 (habs 0.90 (by norm_num)),
      hwidth 0.95 (habs 0.95 (by norm_num)), hwidth 0.99 (habs 0.99 (by norm_num)), hwidth80]
    exact ⟨hmono _ _ hchain.1.le, hmono _ _ hchain.2.1.le, hmono _ _ hchain.2.2.1.le,
      hmono _ _ hchain.2.2.2.le⟩

/-- Counterexample to C6 as stated: at `p10 = 0, p90 = 1e-5`,
`confidence_interval(0, 1e-5, 0.80)` returns `(0, 0)`, not `(0, 1e-5)` (the
4-decimal rounding collapses p90 to 0), and the returned widths at
confidence 0.50 and 0.80 are both 0, so the width does not strictly
increase from 0.50 to 0.80 even though `p10 < p90`. -/
theorem C6_counterexample :
    confidence_interval 0 (1e-5) 0.80 = (0, 0) ∧
    ((0 : ℝ), (0 : ℝ)) ≠ ((0 : ℝ), (1e-5 : ℝ)) ∧
    (0 : ℝ) < 1e-5 ∧
    ciWidth 0 (1e-5) 0.50 = 0 ∧ ciWidth 0 (1e-5) 0.80 = 0 := by
  have hr0 : roundTo 4 (0 : ℝ) = 0 := roundTo_zero 4
  have hr5 : roundTo 4 (1e-5 : ℝ) = 0 := by
    rw [roundTo_eq 4 (1e-5) 0 (by norm_num) (by norm_num)]
    norm_num
  refine ⟨?_, ?_, by norm_num, ?_, ?_⟩
  · rw [ci_at_80, hr0, hr5]
  · intro h
    rw [Prod.ext_iff] at h
    norm_num at h
  · have habs : ¬|(0.50 : ℝ) - 0.80| < 1e-6 := by
      intro h
      rw [abs_of_nonpos (by norm_num)] at h
      norm_num at h
    have hs : ciScaled 0 (1e-5) 0.50 = (1e-5 - 0) / 2 * (0.6745 / 1.2816) := by
      rw [ciScaled, zTarget50]
    rw [ciWidth, ci_off_80 0 (1e-5) 0.50 habs, hs,
      roundTo_eq 4 ((0 + 1e-5) / 2 - (1e-5 - 0) / 2 * (0.6745 / 1.2816)) 0
        (by norm_num) (by norm_num),
      roundTo_eq 4 ((0 + 1e-5) / 2 + (1e-5 - 0) / 2 * (0.6745 / 1.2816)) 0
        (by norm_num) (by norm_num)]
    norm_num
  · rw [ciWidth, ci_at_80, hr0, hr5]
    norm_num

/-- Witness for C6 (amended) at `p10 = 90, p90 = 110`. -/
theorem C6_confidence_interval_amended_witness :
    (ciScaled 90 110 0.50 < ciScaled 90 110 0.80 ∧
     ciScaled 90 110 0.80 < ciScaled 90 110 0.90 ∧
     ciScaled 90 110 0.90 < ciScaled 90 110 0.95 ∧
     ciScaled 90 110 0.95 < ciScaled 90 110 0.99) ∧
    (ciWidth 90 110 0.50 ≤ ciWidth 90 110 0.80 ∧
     ciWidth 90 110 0.80 ≤ ciWidth 90 110 0.90 ∧
     ciWidth 90 110 0.90 ≤ ciWidth 90 110 0.95 ∧
     ciWidth 90 110 0.95 ≤ ciWidth 90 110 0.99) :=
  C6_confidence_interval_amended.2.2 90 110 (by norm_num)

/-! ### Claim C7: additive SHAP -/

lemma ablate_eq_self (l : List (String × ℝ)) (k : String) (b : ℝ)
    (h : k ∉ l.map Prod.fst) : ablate l k b = l := by
  unfold ablate
  conv_rhs => rw [← List.map_id l]
  apply List.map_congr_left
  intro kv hkv
  rw [if_neg, id]
  intro hk
  exact h (hk ▸ List.mem_map_of_mem Prod.fst hkv)

lemma sumPredict_ablate (l : List (String × ℝ)) (k : String) (v b : ℝ)
    (hnd : (l.map Prod.fst).Nodup) (hmem : (k, v) ∈ l) :
    sumPredict l - sumPredict (ablate l k b) = v - b := by
  induction l with
  | nil => simp at hmem
  | cons hd tl ih =>
    rw [List.map_cons, List.nodup_cons] at hnd
    have hcons : ablate (hd :: tl) k b
        = (if hd.1 = k then (hd.1, b) else hd) :: ablate tl k b := by
      simp [ablate]
    rcases List.mem_cons.mp hmem with heq | hmem2
    · have hk : hd.1 = k := by rw [← heq]
      have htl : ablate tl k b = tl :=
        ablate_eq_self tl k b (hk ▸ hnd.1)
      rw [hcons, if_pos hk, htl]
      have hv : hd.2 = v := by rw [← heq]
      simp only [sumPredict, List.map_cons, List.sum_cons]
      rw [hv]
      ring
    · have hk : k ∈ tl.map Prod.fst := by
        have := List.mem_map_of_mem Prod.fst hmem2
        simpa using this
      have hne : hd.1 ≠ k := fun h => hnd.1 (h ▸ hk)
      have hrec := ih hnd.2 hmem2
      rw [hcons, if_neg hne]
      simp only [sumPredict, List.map_cons, List.sum_cons] at hrec ⊢
      linarith

/-- C7 (amended): for every feature map with distinct keys and every baseline
map, when `predict_fn` is the additive function summing the feature values,
`compute_shap` assigns to each feature the 6-decimal rounding of
`feature_value - baseline_value` (baseline defaulting to 0 for features
absent from the baseline map).  (The original claim — the attribution equals
the difference exactly — fails because of the rounding: see the
counterexample.) -/
theorem C7_shap_additive (baseline features : List (String × ℝ))
    (hnd : (features.map Prod.fst).Nodup) :
    computeShap baseline features sumPredict
      = features.map (fun kv => (kv.1, roundTo 6 (kv.2 - dGet baseline kv.1 0))) := by
  unfold computeShap
  apply List.map_congr_left
  intro kv hkv
  have h := sumPredict_ablate features kv.1 kv.2 (dGet baseline kv.1 0) hnd
    (by rwa [show (kv.1, kv.2) = kv from rfl])
  rw [h]

/-- Counterexample to C7 as stated: with the empty baseline and the single
feature `a = 1e-7`, the additive-predictor attribution is
`round(1e-7 - 0, 6) = 0`, not `1e-7 - 0`. -/
theorem C7_counterexample :
    computeShap [] [(("a" : String), (1e-7 : ℝ))] sumPredict
      = [(("a" : String), (0 : ℝ))] ∧ (1e-7 : ℝ) - 0 ≠ 0 := by
  constructor
  · unfold computeShap ablate sumPredict
    simp only [dGet, List.map_cons, List.map_nil, List.sum_cons, List.sum_nil, if_pos rfl]
    rw [roundTo_eq 6 _ 0 (by norm_num) (by norm_num)]
    norm_num
  · norm_num

/-- Witness for C7 (amended) at features `a = 2, b = 3` and baseline `a = 1`:
the attributions are exactly `a ↦ 1`, `b ↦ 3`. -/
theorem C7_shap_additive_witness :
    computeShap [(("a" : String), (1 : ℝ))]
        [(("a" : String), (2 : ℝ)), (("b" : String), (3 : ℝ))] sumPredict
      = [(("a" : String), (1 : ℝ)), (("b" : String), (3 : ℝ))] := by
  rw [C7_shap_additive [(("a" : String), (1 : ℝ))]
    [(("a" : String), (2 : ℝ)), (("b" : String), (3 : ℝ))] (by simp)]
  have ha : dGet [(("a" : String), (1 : ℝ))] ("a") 0 = 1 := by
    simp [dGet]
  have hb : dGet [(("a" : String), (1 : ℝ))] ("b") 0 = 0 := by
    simp [dGet]
  simp only [List.map_cons, List.map_nil, ha, hb]
  rw [show (2 : ℝ) - 1 = 1 by norm_num, show (3 : ℝ) - 0 = 3 by norm_num,
    roundTo_eq 6 1 1000000 (by norm_num) (by norm_num),
    roundTo_eq 6 3 3000000 (by norm_num) (by norm_num)]
  norm_num

/-! ### Claim C8: liquidity model output invariants -/

lemma sigmoid_pos (x : ℝ) : 0 < sigmoid x := by
  unfold sigmoid
  positivity

lemma sigmoid_lt_one (x : ℝ) : sigmoid x < 1 := by
  unfold sigmoid
  have h := Real.exp_pos (-max (-500) (min x 500))
  rw [div_lt_one (by linarith)]
  linarith

lemma lm_direction_sum (ohlcv : List (String × ℝ)) :
    lmPriceUp ohlcv + lmPriceDown ohlcv + lmPriceFlat ohlcv = 1 := by
  have h0 := sigmoid_pos ((dGet ohlcv ("close") 0 - dGet ohlcv ("open") 0)
    / (dGet ohlcv ("open") 1 + 1e-9) * 10)
  have h1 := sigmoid_lt_one ((dGet ohlcv ("close") 0 - dGet ohlcv ("open") 0)
    / (dGet ohlcv ("open") 1 + 1e-9) * 10)
  unfold lmPriceFlat lmPriceDown lmPriceUp
  unfold lmUp
  set u := sigmoid ((dGet ohlcv ("close") 0 - dGet ohlcv ("open") 0)
    / (dGet ohlcv ("open") 1 + 1e-9) * 10) with hu
  rcases le_or_lt u (1 / 20) with hcase | hcase
  · rw [max_eq_right (by linarith : u - 0.1 / 2 ≤ 0),
      max_eq_left (by linarith : (0 : ℝ) ≤ 1 - u - 0.1 / 2)]
    rw [max_eq_left (by linarith)]
    ring
  · rcases le_or_lt (19 / 20 : ℝ) u with hcase2 | hcase2
    · rw [max_eq_left (by linarith : (0 : ℝ) ≤ u - 0.1 / 2),
        max_eq_right (by linarith : 1 - u - 0.1 / 2 ≤ 0)]
      rw [max_eq_left (by linarith)]
      ring
    · rw [max_eq_left (by linarith : (0 : ℝ) ≤ u - 0.1 / 2),
        max_eq_left (by linarith : (0 : ℝ) ≤ 1 - u - 0.1 / 2)]
      rw [max_eq_left (by linarith)]
      ring

lemma roundTo_one (n : ℕ) : roundTo n (1 : ℝ) = 1 := by
  unfold roundTo
  have hp : (0 : ℝ) < 10 ^ n := by positivity
  have h : (⌊(1 : ℝ) * 10 ^ n + 1 / 2⌋ : ℤ) = 10 ^ n := by
    rw [Int.floor_eq_iff]
    constructor
    · push_cast
      linarith
    · push_cast
      linarith
  rw [h]
  push_cast
  field_simp

/-- C8: for every OHLCV map, every optional order-book map and every model
state (fitted or not — `stats` ranges over every `_stats` dict, including the
empty one), `LiquidityModel.predict` returns a `LiquidityPrediction` whose
five probabilities all lie in `[0, 1]`, with the direction triple summing to
1 within 0.01 and the liquidity pair summing to 1 within 0.01. -/
theorem C8_liquidity_bounds (cfg : LiquidityModelConfig) (stats ohlcv : List (String × ℝ))
    (ob : Option (List (String × ℝ))) :
    (0 ≤ (predictLM cfg stats ohlcv ob).price_up_prob ∧
      (predictLM cfg stats ohlcv ob).price_up_prob ≤ 1) ∧
    (0 ≤ (predictLM cfg stats ohlcv ob).price_flat_prob ∧
      (predictLM cfg stats ohlcv ob).price_flat_prob ≤ 1) ∧
    (0 ≤ (predictLM cfg stats ohlcv ob).price_down_prob ∧
      (predictLM cfg stats ohlcv ob).price_down_prob ≤ 1) ∧
    (0 ≤ (predictLM cfg stats ohlcv ob).liquidity_high_prob ∧
      (predictLM cfg stats ohlcv ob).liquidity_high_prob ≤ 1) ∧
    (0 ≤ (predictLM cfg stats ohlcv ob).liquidity_low_prob ∧
      (predictLM cfg stats ohlcv ob).liquidity_low_prob ≤ 1) ∧
    |(predictLM cfg stats ohlcv ob).price_up_prob
      + (predictLM cfg stats ohlcv ob).price_flat_prob
      + (predictLM cfg stats ohlcv ob).price_down_prob - 1| ≤ 0.01 ∧
    |(predictLM cfg stats ohlcv ob).liquidity_high_prob
      + (predictLM cfg stats ohlcv ob).liquidity_low_prob - 1| ≤ 0.01 := by
  have e1 : (predictLM cfg stats ohlcv ob).price_up_prob
      = roundTo 4 (lmPriceUp ohlcv / lmTotal ohlcv) := rfl
  have e2 : (predictLM cfg stats ohlcv ob).price_flat_prob
      = roundTo 4 (lmPriceFlat ohlcv / lmTotal ohlcv) := rfl
  have e3 : (predictLM cfg stats ohlcv ob).price_down_prob
      = roundTo 4 (lmPriceDown ohlcv / lmTotal ohlcv) := rfl
  have e4 : (predictLM cfg stats ohlcv ob).liquidity_high_prob
      = roundTo 4 (sigmoid (lmScore cfg stats (ob.getD []))) := rfl
  have e5 : (predictLM cfg stats ohlcv ob).liquidity_low_prob
      = roundTo 4 (1 - sigmoid (lmScore cfg stats (ob.getD []))) := rfl
  have hpu : 0 ≤ lmPriceUp ohlcv := le_max_right _ _
  have hpd : 0 ≤ lmPriceDown ohlcv := le_max_right _ _
  have hpf : 0 ≤ lmPriceFlat ohlcv := le_max_right _ _
  have hsum := lm_direction_sum ohlcv
  have htot : lmTotal ohlcv = 1 + 1e-9 := by
    unfold lmTotal
    linarith
  have htpos : (0 : ℝ) < lmTotal ohlcv := by
    rw [htot]
    norm_num
  -- bounds for each normalized direction probability before rounding
  have hratio : ∀ a : ℝ, 0 ≤ a → a ≤ 1 →
      0 ≤ a / lmTotal ohlcv ∧ a / lmTotal ohlcv ≤ 1 := by
    intro a ha0 ha1
    constructor
    · positivity
    · rw [div_le_one htpos, htot]
      linarith
  have h1r := hratio (lmPriceUp ohlcv) hpu (by linarith)
  have h2r := hratio (lmPriceFlat ohlcv) hpf (by linarith)
  have h3r := hratio (lmPriceDown ohlcv) hpd (by linarith)
  have hround01 : ∀ x : ℝ, 0 ≤ x → x ≤ 1 → 0 ≤ roundTo 4 x ∧ roundTo 4 x ≤ 1 := by
    intro x h0 h1
    refine ⟨roundTo_nonneg h0, ?_⟩
    have := roundTo_mono (n := 4) h1
    rwa [roundTo_one] at this
  have hlh0 := sigmoid_pos (lmScore cfg stats (ob.getD []))
  have hlh1 := sigmoid_lt_one (lmScore cfg stats (ob.getD []))
  refine ⟨?_, ?_, ?_, ?_, ?_, ?_, ?_⟩
  · rw [e1]
    exact hround01 _ h1r.1 h1r.2
  · rw [e2]
    exact hround01 _ h2r.1 h2r.2
  · rw [e3]
    exact hround01 _ h3r.1 h3r.2
  · rw [e4]
    exact hround01 _ hlh0.le hlh1.le
  · rw [e5]
    exact hround01 _ (by linarith) (by linarith)
  · rw [e1, e2, e3]
    have hs : lmPriceUp ohlcv / lmTotal ohlcv + lmPriceFlat ohlcv / lmTotal ohlcv
        + lmPriceDown ohlcv / lmTotal ohlcv = 1 / (1 + 1e-9) := by
      rw [div_add_div_same, div_add_div_same, htot]
      rw [show lmPriceUp ohlcv + lmPriceFlat ohlcv + lmPriceDown ohlcv
        = lmPriceUp ohlcv + lmPriceDown ohlcv + lmPriceFlat ohlcv by ring, hsum]
    have hfrac1 : (0.999 : ℝ) ≤ 1 / (1 + 1e-9) := by
      rw [le_div_iff₀ (by norm_num)]
      norm_num
    have hfrac2 : (1 : ℝ) / (1 + 1e-9) ≤ 1 := by
      rw [div_le_one (by norm_num)]
      norm_num
    have b1 := roundTo_le 4 (lmPriceUp ohlcv / lmTotal ohlcv)
    have b2 := roundTo_le 4 (lmPriceFlat ohlcv / lmTotal ohlcv)
    have b3 := roundTo_le 4 (lmPriceDown ohlcv / lmTotal ohlcv)
    have c1 := lt_roundTo 4 (lmPriceUp ohlcv / lmTotal ohlcv)
    have c2 := lt_roundTo 4 (lmPriceFlat ohlcv / lmTotal ohlcv)
    have c3 := lt_roundTo 4 (lmPriceDown ohlcv / lmTotal ohlcv)
    rw [abs_le]
    constructor <;> nlinarith
  · rw [e4, e5]
    have b1 := roundTo_le 4 (sigmoid (lmScore cfg stats (ob.getD [])))
    have b2 := roundTo_le 4 (1 - sigmoid (lmScore cfg stats (ob.getD [])))
    have c1 := lt_roundTo 4 (sigmoid (lmScore cfg stats (ob.getD [])))
    have c2 := lt_roundTo 4 (1 - sigmoid (lmScore cfg stats (ob.getD [])))
    rw [abs_le]
    constructor <;> nlinarith

/-! ### Claims C5 and C10: the transfer learner -/

lemma zipWith_sub_replicate (c : ℝ) :
    ∀ n : ℕ, List.zipWith (fun a b => a - b) (List.replicate n c) (List.replicate (n + 1) c)
      = List.replicate n (0 : ℝ)
  | 0 => by simp
  | n + 1 => by
    rw [List.replicate_succ c (n + 1), List.replicate_succ c n, List.zipWith_cons_cons,
      sub_self]
    rw [← List.replicate_succ c n]
    rw [zipWith_sub_replicate c n]
    simp [List.replicate_succ]

lemma logReturns_replicate (n : ℕ) (x : ℝ) :
    logReturns (List.replicate (n + 1) x) = List.replicate n 0 := by
  unfold logReturns
  rw [List.map_replicate, List.replicate_succ, List.tail_cons,
    ← List.replicate_succ (Real.log (x + 1e-9)) n]
  exact zipWith_sub_replicate _ n

lemma mean_replicate_zero (n : ℕ) : mean (List.replicate n (0 : ℝ)) = 0 := by
  unfold mean
  simp

lemma stdDev_replicate_zero (n : ℕ) : stdDev (List.replicate n (0 : ℝ)) = 0 := by
  unfold stdDev
  rw [mean_replicate_zero, List.map_replicate]
  norm_num
  rw [mean_replicate_zero]
  exact Real.sqrt_zero

lemma lastD_replicate (n : ℕ) (x : ℝ) : lastD (List.replicate (n + 1) x) = x := by
  unfold lastD
  rw [List.replicate_succ']
  simp

lemma fitStats_replicate (n : ℕ) (x : ℝ) :
    fitStats (List.replicate (n + 1) x) = ⟨0, 1e-9, x⟩ := by
  unfold fitStats
  rw [logReturns_replicate, mean_replicate_zero, stdDev_replicate_zero, lastD_replicate]
  norm_num

/-- C5: `TransferLearner.fine_tune` raises NotFitted when called before any
`pre_train`; after a successful `pre_train`, `fine_tune` on a sufficiently
long target series (at least `seq_len + max_horizon` points, so the inner fit
succeeds) sets the underlying forecaster's mu and sigma each to 0.3 times the
pre-trained value plus 0.7 times the value obtained by fitting the target
series alone, and sets the finetuned flag to true. -/
theorem C5_fine_tune_blend :
    (∀ target : List ℝ, fineTune tlInit target = (Except.error ForecastErr.notFitted, tlInit)) ∧
    (∀ (st : TLState) (corpus : List (String × List ℝ)) (st1 : TLState) (target : List ℝ)
      (u : Unit),
      preTrain st corpus = (Except.ok u, st1) →
      qfConfigDefault.seq_len + qfConfigDefault.max_horizon ≤ target.length →
      fineTune st1 target =
        (Except.ok (),
         ⟨some (some ⟨0.3 * (fitStats ((corpus.map Prod.snd).flatten)).mu
              + 0.7 * (fitStats target).mu,
            0.3 * (fitStats ((corpus.map Prod.snd).flatten)).sigma
              + 0.7 * (fitStats target).sigma,
            (fitStats target).last_price⟩),
          true, true, corpus.map Prod.fst⟩)) := by
  constructor
  · intro target
    rfl
  · intro st corpus st1 target u hpre hlen
    have hst1 : st1 = ⟨some (some (fitStats ((corpus.map Prod.snd).flatten))), true,
        st.finetuned, corpus.map Prod.fst⟩ := by
      unfold preTrain at hpre
      unfold fitQF at hpre
      split_ifs at hpre with hlen2
      · simp at hpre
      · simp only [Prod.mk.injEq] at hpre
        exact hpre.2.symm
    subst hst1
    have hfit2 : fitQF qfConfigDefault (some (fitStats ((corpus.map Prod.snd).flatten))) target
        = (Except.ok (), some (fitStats target)) := by
      unfold fitQF
      rw [if_neg (not_lt.mpr hlen)]
    simp only [fineTune]
    rw [hfit2]
    simp only [Option.map_some', Option.getD_some, Prod.mk.injEq]
    norm_num

/-- Witness for C5: a concrete corpus of 35 constant prices 100 and a target
of 35 constant prices 50; the blended state is `mu = 0.3·0 + 0.7·0`,
`sigma = 0.3·1e-9 + 0.7·1e-9`, last price 50. -/
theorem C5_fine_tune_blend_witness :
    fineTune tlInit [] = (Except.error ForecastErr.notFitted, tlInit) ∧
    fineTune ⟨some (some (⟨0, 1e-9, 100⟩ : QFWeights)), true, false, [("A" : String)]⟩
        (List.replicate 35 (50 : ℝ))
      = (Except.ok (),
         ⟨some (some (⟨0.3 * 0 + 0.7 * 0, 0.3 * 1e-9 + 0.7 * 1e-9, 50⟩ : QFWeights)),
          true, true, [("A" : String)]⟩) := by
  have h35 : (35 : ℕ) = 34 + 1 := by norm_num
  have hpre : preTrain tlInit [(("A" : String), List.replicate 35 (100 : ℝ))]
      = (Except.ok (), ⟨some (some (⟨0, 1e-9, 100⟩ : QFWeights)), true, false,
          [("A" : String)]⟩) := by
    have hfl : (([(("A" : String), List.replicate 35 (100 : ℝ))].map Prod.snd).flatten)
        = List.replicate 35 (100 : ℝ) := by
      simp
    have hfit : fitQF qfConfigDefault none
        (([(("A" : String), List.replicate 35 (100 : ℝ))].map Prod.snd).flatten)
        = (Except.ok (), some (fitStats (List.replicate 35 (100 : ℝ)))) := by
      rw [hfl]
      unfold fitQF
      rw [if_neg (by simp [qfConfigDefault])]
    unfold preTrain
    rw [hfit]
    rw [h35, fitStats_replicate]
    simp [tlInit]
  have h := C5_fine_tune_blend.2 tlInit [(("A" : String), List.replicate 35 (100 : ℝ))]
    ⟨some (some (⟨0, 1e-9, 100⟩ : QFWeights)), true, false, [("A" : String)]⟩
    (List.replicate 35 (50 : ℝ)) () hpre (by simp [qfConfigDefault])
  refine ⟨C5_fine_tune_blend.1 [], ?_⟩
  rw [h]
  have hfl : (([(("A" : String), List.replicate 35 (100 : ℝ))].map Prod.snd).flatten)
      = List.replicate 35 (100 : ℝ) := by
    simp
  rw [hfl, h35, fitStats_replicate, fitStats_replicate]
  simp

/-- C10: a `fine_tune` after a successful `pre_train` with a target shorter
than `seq_len + max_horizon` (default 30 + 5) raises InsufficientHistory and
leaves the pre-trained forecaster state and the finetuned flag unchanged —
the length check inside the inner `fit` precedes every state mutation, so a
failed `fine_tune` is atomic. -/
theorem C10_fine_tune_atomic (st : TLState) (corpus : List (String × List ℝ))
    (st1 : TLState) (target : List ℝ) (u : Unit)
    (hpre : preTrain st corpus = (Except.ok u, st1))
    (hshort : target.length < qfConfigDefault.seq_len + qfConfigDefault.max_horizon) :
    fineTune st1 target = (Except.error ForecastErr.insufficientHistory, st1) := by
  have hst1 : st1 = ⟨some (some (fitStats ((corpus.map Prod.snd).flatten))), true,
      st.finetuned, corpus.map Prod.fst⟩ := by
    unfold preTrain at hpre
    unfold fitQF at hpre
    split_ifs at hpre with hlen2
    · simp at hpre
    · simp only [Prod.mk.injEq] at hpre
      exact hpre.2.symm
  subst hst1
  have hfit2 : fitQF qfConfigDefault (some (fitStats ((corpus.map Prod.snd).flatten))) target
      = (Except.error ForecastErr.insufficientHistory,
         some (fitStats ((corpus.map Prod.snd).flatten))) := by
    unfold fitQF
    rw [if_pos hshort]
  simp only [fineTune]
  rw [hfit2]

/-- Witness for C10: pre-train on 35 constant prices, then `fine_tune` on the
3-point series `[1, 2, 3]` — the call fails and returns the state unchanged. -/
theorem C10_fine_tune_atomic_witness :
    fineTune ⟨some (some (⟨0, 1e-9, 100⟩ : QFWeights)), true, false, [("A" : String)]⟩
        [(1 : ℝ), 2, 3]
      = (Except.error ForecastErr.insufficientHistory,
         ⟨some (some (⟨0, 1e-9, 100⟩ : QFWeights)), true, false, [("A" : String)]⟩) := by
  have h35 : (35 : ℕ) = 34 + 1 := by norm_num
  have hpre : preTrain tlInit [(("A" : String), List.replicate 35 (100 : ℝ))]
      = (Except.ok (), ⟨some (some (⟨0, 1e-9, 100⟩ : QFWeights)), true, false,
          [("A" : String)]⟩) := by
    have hfl : (([(("A" : String), List.replicate 35 (100 : ℝ))].map Prod.snd).flatten)
        = List.replicate 35 (100 : ℝ) := by
      simp
    have hfit : fitQF qfConfigDefault none
        (([(("A" : String), List.replicate 35 (100 : ℝ))].map Prod.snd).flatten)
        = (Except.ok (), some (fitStats (List.replicate 35 (100 : ℝ)))) := by
      rw [hfl]
      unfold fitQF
      rw [if_neg (by simp [qfConfigDefault])]
    unfold preTrain
    rw [hfit]
    rw [h35, fitStats_replicate]
    simp [tlInit]
  have h := C10_fine_tune_atomic tlInit [(("A" : String), List.replicate 35 (100 : ℝ))]
    ⟨some (some (⟨0, 1e-9, 100⟩ : QFWeights)), true, false, [("A" : String)]⟩
    [(1 : ℝ), 2, 3] () hpre (by simp [qfConfigDefault])
  have hfl : (([(("A" : String), List.replicate 35 (100 : ℝ))].map Prod.snd).flatten)
      = List.replicate 35 (100 : ℝ) := by
    simp
  rw [h]

/-! ### Claim C9: the synthetic augmenter -/

lemma lastD_pos (l : List ℝ) (hne : l ≠ []) (hpos : ∀ p ∈ l, 0 < p) : 0 < lastD l := by
  unfold lastD
  rw [List.getLast?_eq_getLast l hne]
  exact hpos _ (List.getLast_mem hne)

/-- C9 (amended): `generate` before `fit` raises NotFitted; after `fit` on a
positive price series, `generate(n)` for `n ≥ 1` returns exactly `n` series,
each of the configured target length 60, and each value is the 4-decimal
rounding of a strictly positive quantity (hence nonnegative).  This holds for
every possible draw of the Gaussian noise, represented by the function
`noise`.  (The original claim — every generated value strictly positive —
fails because the rounding can collapse a tiny price to 0: see the
counterexample.) -/
theorem C9_generate_amended :
    (∀ (noise : ℕ → ℕ → ℝ) (n : ℕ),
      generate augConfigDefault augInit noise n = Except.error ForecastErr.notFitted) ∧
    (∀ (prices : List ℝ) (noise : ℕ → ℕ → ℝ) (n : ℕ),
      prices ≠ [] → (∀ p ∈ prices, 0 < p) → 1 ≤ n →
      generate augConfigDefault (fitAug prices) noise n
        = Except.ok ((List.range n).map (genSeries augConfigDefault (fitAug prices) noise)) ∧
      ((List.range n).map (genSeries augConfigDefault (fitAug prices) noise)).length = n ∧
      (∀ s ∈ (List.range n).map (genSeries augConfigDefault (fitAug prices) noise),
        s.length = 60 ∧ ∀ x ∈ s, 0 ≤ x) ∧
      (∀ i : ℕ, genSeries augConfigDefault (fitAug prices) noise i
          = (rawSeries augConfigDefault (fitAug prices) noise i).map (roundTo 4) ∧
        ∀ y ∈ rawSeries augConfigDefault (fitAug prices) noise i, 0 < y)) := by
  constructor
  · intro noise n
    rfl
  · intro prices noise n hne hpos hn
    have hlast : 0 < (fitAug prices).last_price := lastD_pos prices hne hpos
    have hraw : ∀ i : ℕ, ∀ y ∈ rawSeries augConfigDefault (fitAug prices) noise i, 0 < y := by
      intro i y hy
      simp only [rawSeries, List.mem_map] at hy
      obtain ⟨j, _, rfl⟩ := hy
      positivity
    refine ⟨?_, by simp, ?_, ?_⟩
    · unfold generate
      rw [if_pos (show (fitAug prices).fitted = true by rfl), if_neg (by omega)]
    · intro s hs
      simp only [List.mem_map, List.mem_range] at hs
      obtain ⟨i, _, rfl⟩ := hs
      constructor
      · simp [genSeries, rawSeries, augConfigDefault]
      · intro x hx
        simp only [genSeries, List.mem_map] at hx
        obtain ⟨y, hy, rfl⟩ := hx
        exact roundTo_nonneg (hraw i y hy).le
    · intro i
      exact ⟨rfl, hraw i⟩

/-- Counterexample to C9 as stated: after fitting on the positive series
`[100, 100]`, the draw sequence constantly equal to −20 produces a first
value `round(100·exp(−20), 4) = 0`, which is not strictly positive. -/
theorem C9_counterexample :
    generate augConfigDefault (fitAug [(100 : ℝ), 100]) (fun _ _ => (-20 : ℝ)) 1
      = Except.ok
          [genSeries augConfigDefault (fitAug [(100 : ℝ), 100]) (fun _ _ => (-20 : ℝ)) 0] ∧
    (genSeries augConfigDefault (fitAug [(100 : ℝ), 100]) (fun _ _ => (-20 : ℝ)) 0).head?
      = some 0 := by
  constructor
  · unfold generate
    rw [if_pos (show (fitAug [(100 : ℝ), 100]).fitted = true by rfl), if_neg (by omega)]
    rw [show (1 : ℕ) = 0 + 1 from rfl, List.range_succ]
    simp
  · have hlast : (fitAug [(100 : ℝ), 100]).last_price = 100 := by
      simp [fitAug, lastD]
    have hexp : Real.exp (20 : ℝ) > 2000000 := by
      have hp : Real.exp (20 : ℝ) = Real.exp 1 ^ 20 := by
        rw [show (20 : ℝ) = ((20 : ℕ) : ℝ) * 1 by norm_num, Real.exp_nat_mul]
      rw [hp]
      calc (2000000 : ℝ) < 2.7 ^ 20 := by norm_num
        _ ≤ Real.exp 1 ^ 20 := by
            apply pow_le_pow_left₀ (by norm_num)
            have := Real.exp_one_gt_d9
            linarith
    have hval : Real.exp (-20 : ℝ) < 1 / 2000000 := by
      rw [Real.exp_neg, inv_eq_one_div]
      exact one_div_lt_one_div_of_lt (by norm_num) hexp
    have hexpos := Real.exp_pos (-20 : ℝ)
    unfold genSeries rawSeries
    rw [show augConfigDefault.seq_len = 59 + 1 from rfl, List.range_succ_eq_map]
    simp only [List.map_cons, List.head?_cons, hlast]
    rw [show ((List.range (0 + 1)).map (fun _ => (-20 : ℝ))).sum = -20 by simp]
    rw [roundTo_eq 4 (100 * Real.exp (-20)) 0 (by nlinarith) (by nlinarith)]
    norm_num

/-- Witness for C9 (amended): fit on `[100, 100]`, all-zero noise draws,
`generate 1`. -/
theorem C9_generate_amended_witness :
    generate augConfigDefault (fitAug [(100 : ℝ), 100]) (fun _ _ => (0 : ℝ)) 1
      = Except.ok ((List.range 1).map
          (genSeries augConfigDefault (fitAug [(100 : ℝ), 100]) (fun _ _ => (0 : ℝ)))) ∧
    ((List.range 1).map
        (genSeries augConfigDefault (fitAug [(100 : ℝ), 100]) (fun _ _ => (0 : ℝ)))).length = 1 ∧
    (∀ s ∈ (List.range 1).map
        (genSeries augConfigDefault (fitAug [(100 : ℝ), 100]) (fun _ _ => (0 : ℝ))),
      s.length = 60 ∧ ∀ x ∈ s, 0 ≤ x) ∧
    (∀ i : ℕ, genSeries augConfigDefault (fitAug [(100 : ℝ), 100]) (fun _ _ => (0 : ℝ)) i
        = (rawSeries augConfigDefault (fitAug [(100 : ℝ), 100])
            (fun _ _ => (0 : ℝ)) i).map (roundTo 4) ∧
      ∀ y ∈ rawSeries augConfigDefault (fitAug [(100 : ℝ), 100]) (fun _ _ => (0 : ℝ)) i,
        0 < y) :=
  C9_generate_amended.2 [(100 : ℝ), 100] (fun _ _ => (0 : ℝ)) 1
    (by simp)
    (by
      intro p hp
      rcases List.mem_cons.mp hp with rfl | hp2
      · norm_num
      · rcases List.mem_cons.mp hp2 with rfl | hp3
        · norm_num
        · simp at hp3)
    (by norm_num)

end Spec2Proof
